import Mathlib

/-!
Verification of the campaign scheduling / rate-limited delivery engine of the
Waztomatic repository.  Text is embedded as `List Char`; the JS services
(`spintax.ts`, `scheduler.ts`, `whatsapp.ts`, in-memory storage) are embedded
as executable Lean functions, with nondeterminism (random spintax choices,
gateway failures, thrown errors) made explicit through oracle parameters.
-/

set_option autoImplicit false

/-- Text is modelled as a list of characters. -/
abbrev Str := List Char

/-! ## Basic text utilities (JS string primitives used by the services) -/

/-- Whitespace test used by `String.prototype.trim` (common whitespace). -/
def isSpaceChar (c : Char) : Bool :=
  c = ' ' || c = '\t' || c = '\n' || c = '\r'

/-- JS `trim`: drop whitespace at both ends. -/
def trimEnds (s : Str) : Str :=
  ((s.dropWhile isSpaceChar).reverse.dropWhile isSpaceChar).reverse

/-- Test whether `pat` occurs at the head of `s`, returning the remainder. -/
def stripLead : Str → Str → Option Str
  | [], s => some s
  | _ :: _, [] => none
  | p :: ps, c :: cs => if p = c then stripLead ps cs else none

theorem stripLead_length {pat s rest : Str} (h : stripLead pat s = some rest) :
    rest.length + pat.length = s.length := by
  induction pat generalizing s with
  | nil =>
    simp [stripLead] at h
    simp [h]
  | cons p ps ih =>
    cases s with
    | nil => simp [stripLead] at h
    | cons c cs =>
      simp only [stripLead] at h
      split at h
      · have := ih h
        simp [List.length_cons]
        omega
      · exact absurd h (by simp)

/-- Fuel-indexed scan for `replaceAll`; every step consumes at least one
character, so fuel equal to the string length never runs out. -/
def replaceAllAux (pat repl : Str) : Nat → Str → Str
  | 0, s => s
  | _ + 1, [] => []
  | fuel + 1, c :: cs =>
    match stripLead pat (c :: cs) with
    | some rest =>
      if pat = [] then c :: replaceAllAux pat repl fuel cs
      else repl ++ replaceAllAux pat repl fuel rest
    | none => c :: replaceAllAux pat repl fuel cs

/-- JS `String.prototype.replace` with a global literal pattern: scan left to
right, replacing every non-overlapping occurrence of `pat` by `repl`, never
rescanning the inserted replacement. -/
def replaceAll (pat repl s : Str) : Str := replaceAllAux pat repl s.length s

/-- Placeholder pattern `{key}` as built by the personalizer. -/
def ph (k : Str) : Str := '{' :: (k ++ ['}'])

/-- JS truthiness for strings: an empty string is falsy (`s || d`). -/
def jsStrOr (s d : Str) : Str := if s = [] then d else s

/-- JS truthiness for optional strings (`o || d` with `o` possibly null). -/
def jsOptOr (o : Option Str) (d : Str) : Str :=
  match o with
  | none => d
  | some s => jsStrOr s d

/-- Lower-casing used by the auto-reply matcher (`toLowerCase`). -/
def lowerStr (s : Str) : Str := s.map Char.toLower

/-- JS `String.prototype.includes`: substring test. -/
def hasSub (hay needle : Str) : Bool :=
  hay.tails.any (fun t => (stripLead needle t).isSome)

/-! ## Spintax engine (`server/services/spintax.ts`) -/

/-- Content with no brace characters, as required by `[^{}]*` in the regex. -/
def braceFree (s : Str) : Bool := s.all (fun c => c ≠ '{' && c ≠ '}')

/-- Maximal brace-free prefix of a string and the rest. -/
def splitRun : Str → (Str × Str)
  | [] => ([], [])
  | c :: cs =>
    if c = '{' || c = '}' then ([], c :: cs)
    else
      let (r, rest) := splitRun cs
      (c :: r, rest)

theorem splitRun_append (s : Str) : (splitRun s).1 ++ (splitRun s).2 = s := by
  induction s with
  | nil => simp [splitRun]
  | cons c cs ih =>
    simp only [splitRun]
    split
    · simp
    · simpa using ih

theorem splitRun_braceFree (s : Str) : braceFree (splitRun s).1 = true := by
  induction s with
  | nil => simp [splitRun, braceFree]
  | cons c cs ih =>
    simp only [splitRun]
    split
    · simp [braceFree]
    · rename_i hc
      simp only [Bool.or_eq_true, decide_eq_true_eq, not_or] at hc
      simp only [braceFree, List.all_cons, Bool.and_eq_true, decide_eq_true_eq]
      exact ⟨⟨hc.1, hc.2⟩, ih⟩

theorem splitRun_of_braceFree {a : Str} (b : Str) (ha : braceFree a = true) :
    splitRun (a ++ '}' :: b) = (a, '}' :: b) := by
  induction a with
  | nil => simp [splitRun]
  | cons c cs ih =>
    simp only [braceFree, List.all_cons, Bool.and_eq_true, decide_eq_true_eq] at ha
    have h1 : (decide (c = '{') || decide (c = '}')) = false := by
      simp [ha.1.1, ha.1.2]
    simp only [List.cons_append, splitRun, List.append_eq]
    rw [ih ha.2]
    simp [h1]

/-- Shift a match found one character to the right of the scan position. -/
def prependGroup (c : Char) : Option (Str × Str × Str) → Option (Str × Str × Str)
  | some (pre, g, suf) => some (c :: pre, g, suf)
  | none => none

/-- Leftmost match of the regex `\{([^{}]*\|[^{}]*)\}` used by `parseSpintax`:
returns the text before the group, the group content, and the text after.  At
each `{` the engine can only match when the following brace-free run is closed
by `}` and contains a pipe; otherwise the scan restarts one character later. -/
def findGroup : Str → Option (Str × Str × Str)
  | [] => none
  | c :: cs =>
    if c = '{' ∧ (splitRun cs).2.headD ' ' = '}' ∧ '|' ∈ (splitRun cs).1 then
      some ([], (splitRun cs).1, (splitRun cs).2.tail)
    else prependGroup c (findGroup cs)

/-- JS `content.split('|')`: always returns at least one piece. -/
def splitOnPipe : Str → List Str
  | [] => [[]]
  | c :: cs =>
    let r := splitOnPipe cs
    if c = '|' then [] :: r
    else
      match r with
      | h :: t => (c :: h) :: t
      | [] => [[c]]

theorem splitOnPipe_ne_nil (s : Str) : splitOnPipe s ≠ [] := by
  cases s with
  | nil => simp [splitOnPipe]
  | cons c cs =>
    simp only [splitOnPipe]
    split
    · simp
    · split
      · simp
      · simp

/-- JS `GetSubstitution` for `String.prototype.replace` with a string
pattern (no capture groups): in the replacement, a dollar followed by a
dollar yields one dollar, `$&` yields the matched substring, a dollar
followed by a backquote yields the part of the subject before the match,
`$'` yields the part after the match, and every other character — including
a dollar followed by anything else — is copied literally.  `Char.ofNat 96`
is the backquote and `Char.ofNat 39` the single quote. -/
def expandRepl (matched before after : Str) : Str → Str
  | [] => []
  | [c] => [c]
  | c :: d :: r =>
    if c = '$' then
      if d = '$' then '$' :: expandRepl matched before after r
      else if d = '&' then matched ++ expandRepl matched before after r
      else if d = Char.ofNat 96 then before ++ expandRepl matched before after r
      else if d = Char.ofNat 39 then after ++ expandRepl matched before after r
      else c :: expandRepl matched before after (d :: r)
    else c :: expandRepl matched before after (d :: r)

/-- One replacement step of `parseSpintax`:
`result.replace(fullMatch, randomOption.trim())` — the matched group is
replaced by the chosen trimmed option, with JS replacement patterns expanded
against the match (`fullMatch` is the matched text, `pre` the part of the
subject before the match, `suf` the part after).  `k` is the random index
drawn by the source. -/
def spintaxStep (k : Nat) (pre content suf : Str) : Str :=
  let options := splitOnPipe content
  let chosen := options.getD (k % options.length) []
  let fullMatch := '{' :: (content ++ ['}'])
  pre ++ expandRepl fullMatch pre suf (trimEnds chosen) ++ suf

/-- Number of opening braces; for inputs whose replacements expand literally
(no effective `$`-pattern) this bounds the number of loop iterations. -/
def countOpen (s : Str) : Nat := s.countP (fun c => c = '{')

/-- Loop-state view of the `while`-loop in `parseSpintax`: the rewrite state
after at most `fuel` replacement steps (the state reached when the loop exits
earlier).  For inputs with no dollar character, `countOpen s` steps are
proved sufficient below, so `parseSpintax` is then the loop's actual result;
`parseSpintaxRun` below is the faithful partial-function embedding that also
accounts for divergence. -/
def parseSpintaxAux : Nat → List Nat → Str → Str
  | 0, _, s => s
  | fuel + 1, ks, s =>
    match findGroup s with
    | none => s
    | some (pre, content, suf) =>
      parseSpintaxAux fuel ks.tail (spintaxStep (ks.headD 0) pre content suf)

/-- Spintax rendering (`parseSpintax` in `spintax.ts`) viewed through
`parseSpintaxAux` with the brace-count iteration bound; the oracle `ks`
fixes the sequence of random choices. -/
def parseSpintax (ks : List Nat) (s : Str) : Str :=
  parseSpintaxAux (countOpen s) ks s

/-- Faithful embedding of the `while`-loop of `parseSpintax` as a partial
function: `some r` exactly when the loop exits within `fuel` replacement
steps with result `r`; divergence of the source loop is `none` for every
fuel. -/
def parseSpintaxRun : Nat → List Nat → Str → Option Str
  | 0, _, s =>
    match findGroup s with
    | none => some s
    | some _ => none
  | fuel + 1, ks, s =>
    match findGroup s with
    | none => some s
    | some (pre, content, suf) =>
      parseSpintaxRun fuel ks.tail (spintaxStep (ks.headD 0) pre content suf)

/-- Errors reported by `validateSpintax`; the JS strings are abstracted to
their kind plus the offending group. -/
inductive SpintaxError where
  | unmatchedClose
  | unmatchedOpen
  | missingPipe (group : Str)
  | emptyOption (group : Str)
deriving DecidableEq

/-- Brace balance scan of `validateSpintax`: counter up on `{`, down on `}`,
error and break when it would go negative, error when it ends positive. -/
def braceErrors : Str → Nat → List SpintaxError
  | [], n => if n > 0 then [.unmatchedOpen] else []
  | c :: cs, n =>
    if c = '{' then braceErrors cs (n + 1)
    else if c = '}' then
      if n = 0 then [.unmatchedClose] else braceErrors cs (n - 1)
    else braceErrors cs n

/-- Fuel-indexed scan for `groupScan`; every step consumes at least one
character, so fuel equal to the string length never runs out. -/
def groupScanAux : Nat → Str → List Str
  | 0, _ => []
  | _ + 1, [] => []
  | fuel + 1, c :: cs =>
    if c = '{' ∧ (splitRun cs).2.headD ' ' = '}' then
      (splitRun cs).1 :: groupScanAux fuel (splitRun cs).2.tail
    else groupScanAux fuel cs

/-- Non-overlapping left-to-right scan of `\{([^{}]*)\}`, collecting every
matched group content in order (the second loop of `validateSpintax`). -/
def groupScan (s : Str) : List Str := groupScanAux s.length s

/-- Per-group errors of `validateSpintax`. -/
def groupErrs (g : Str) : List SpintaxError :=
  if '|' ∈ g then
    if (splitOnPipe g).any (fun o => (trimEnds o).isEmpty) then
      [.emptyOption g]
    else []
  else [.missingPipe g]

/-- Spintax validation (`validateSpintax` in `spintax.ts`). -/
def validateSpintax (s : Str) : Bool × List SpintaxError :=
  let errs := braceErrors s 0 ++ ((groupScan s).map groupErrs).flatten
  (errs.isEmpty, errs)

/-! ## Lemmas about spintax rendering -/

/-- Presence of an unresolved spintax marker: a brace-delimited group whose
content is brace-free and contains a pipe. -/
def HasMarker (s : Str) : Prop :=
  ∃ pre content suf, s = pre ++ '{' :: (content ++ '}' :: suf) ∧
    braceFree content = true ∧ '|' ∈ content

theorem prependGroup_isSome (c : Char) (o : Option (Str × Str × Str)) :
    (prependGroup c o).isSome = o.isSome := by
  rcases o with _ | ⟨⟨pre, g, suf⟩⟩ <;> simp [prependGroup]

theorem findGroup_some_spec {s pre content suf : Str}
    (h : findGroup s = some (pre, content, suf)) :
    s = pre ++ '{' :: (content ++ '}' :: suf) ∧
      braceFree content = true ∧ '|' ∈ content := by
  induction s generalizing pre content suf with
  | nil => simp [findGroup] at h
  | cons c cs ih =>
    have hpre : prependGroup c (findGroup cs) = some (pre, content, suf) →
        c :: cs = pre ++ '{' :: (content ++ '}' :: suf) ∧
          braceFree content = true ∧ '|' ∈ content := by
      intro h'
      rcases hfg : findGroup cs with _ | ⟨⟨pre', g', suf'⟩⟩
      · rw [hfg] at h'
        simp [prependGroup] at h'
      · rw [hfg] at h'
        simp only [prependGroup, Option.some.injEq, Prod.mk.injEq] at h'
        obtain ⟨h1, h2, h3⟩ := h'
        obtain ⟨hdec, hbf, hpg⟩ := ih hfg
        subst h1; subst h2; subst h3
        exact ⟨by simp [hdec], hbf, hpg⟩
    rw [findGroup] at h
    by_cases hcond : c = '{' ∧ (splitRun cs).2.headD ' ' = '}' ∧ '|' ∈ (splitRun cs).1
    · rw [if_pos hcond] at h
      obtain ⟨hc, hhead, hpipe⟩ := hcond
      simp only [Option.some.injEq, Prod.mk.injEq] at h
      obtain ⟨h1, h2, h3⟩ := h
      subst h1; subst h2; subst h3
      rcases hrun : splitRun cs with ⟨run, rest⟩
      have hcs : run ++ rest = cs := by
        have := splitRun_append cs
        rw [hrun] at this
        exact this
      rcases rest with _ | ⟨d, tail⟩
      · rw [hrun] at hhead
        simp at hhead
      · rw [hrun] at hhead hpipe
        simp only [List.headD_cons] at hhead
        dsimp only at hpipe ⊢
        subst hhead
        refine ⟨?_, ?_, hpipe⟩
        · simp only [List.nil_append, List.tail_cons]
          rw [hc]
          simp [← hcs]
        · have := splitRun_braceFree cs
          rw [hrun] at this
          exact this
    · rw [if_neg hcond] at h
      exact hpre h

theorem findGroup_cons_isSome {c : Char} {cs : Str}
    (h : (findGroup cs).isSome) : (findGroup (c :: cs)).isSome := by
  rw [findGroup]
  by_cases hcond : c = '{' ∧ (splitRun cs).2.headD ' ' = '}' ∧ '|' ∈ (splitRun cs).1
  · rw [if_pos hcond]
    simp
  · rw [if_neg hcond]
    rw [prependGroup_isSome]
    exact h

theorem findGroup_isSome_of_marker {s : Str} (h : HasMarker s) :
    (findGroup s).isSome := by
  obtain ⟨pre, content, suf, hs, hbf, hp⟩ := h
  subst hs
  induction pre with
  | nil =>
    rw [List.nil_append, findGroup]
    rw [if_pos ?hcond]
    case hcond =>
      refine ⟨rfl, ?_, ?_⟩
      · rw [splitRun_of_braceFree suf hbf]
        rfl
      · rw [splitRun_of_braceFree suf hbf]
        exact hp
    simp
  | cons c pre' ih =>
    exact findGroup_cons_isSome ih

/-- Options split from a brace-free content are brace-free. -/
theorem splitOnPipe_braceFree {content : Str} (hbf : braceFree content = true) :
    ∀ o ∈ splitOnPipe content, braceFree o = true := by
  induction content with
  | nil =>
    intro o ho
    simp [splitOnPipe] at ho
    simp [ho, braceFree]
  | cons c cs ih =>
    simp only [braceFree, List.all_cons, Bool.and_eq_true] at hbf
    intro o ho
    simp only [splitOnPipe] at ho
    split at ho
    · rcases List.mem_cons.mp ho with h | h
      · simp [h, braceFree]
      · exact ih hbf.2 o h
    · rcases hsp : splitOnPipe cs with _ | ⟨h0, t0⟩
      · exact absurd hsp (splitOnPipe_ne_nil cs)
      · rw [hsp] at ho
        rcases List.mem_cons.mp ho with h | h
        · subst h
          have h0bf : braceFree h0 = true := ih hbf.2 h0 (by rw [hsp]; simp)
          simp only [braceFree, List.all_cons, Bool.and_eq_true]
          exact ⟨hbf.1, h0bf⟩
        · exact ih hbf.2 o (by rw [hsp]; simp [h])

theorem braceFree_sublist {a b : Str} (hsub : a.Sublist b)
    (hb : braceFree b = true) : braceFree a = true := by
  simp only [braceFree, List.all_eq_true] at hb ⊢
  exact fun c hc => hb c (hsub.mem hc)

theorem trimEnds_sublist (s : Str) : (trimEnds s).Sublist s := by
  unfold trimEnds
  have h1 : ((s.dropWhile isSpaceChar).reverse.dropWhile isSpaceChar).reverse.Sublist
      (s.dropWhile isSpaceChar).reverse.reverse :=
    List.Sublist.reverse (List.dropWhile_sublist _)
  rw [List.reverse_reverse] at h1
  exact h1.trans (List.dropWhile_sublist _)

theorem trimEnds_braceFree {s : Str} (hs : braceFree s = true) :
    braceFree (trimEnds s) = true :=
  braceFree_sublist (trimEnds_sublist s) hs

theorem countOpen_eq_zero_of_braceFree {s : Str} (h : braceFree s = true) :
    countOpen s = 0 := by
  simp only [braceFree, List.all_eq_true, Bool.and_eq_true, decide_eq_true_eq] at h
  simp only [countOpen, List.countP_eq_zero]
  intro c hc
  simp [(h c hc).1]

theorem countOpen_append (a b : Str) :
    countOpen (a ++ b) = countOpen a + countOpen b := by
  simp [countOpen, List.countP_append]

theorem countOpen_cons (c : Char) (s : Str) :
    countOpen (c :: s) = countOpen s + (if c = '{' then 1 else 0) := by
  simp only [countOpen, List.countP_cons]
  by_cases h : c = '{' <;> simp [h]

/-- Characters of any piece split off by `splitOnPipe` come from the split
string. -/
theorem splitOnPipe_subset {content : Str} :
    ∀ o ∈ splitOnPipe content, ∀ c ∈ o, c ∈ content := by
  induction content with
  | nil =>
    intro o ho c hc
    simp [splitOnPipe] at ho
    subst ho
    simp at hc
  | cons a cs ih =>
    intro o ho c hc
    simp only [splitOnPipe] at ho
    split at ho
    · rcases List.mem_cons.mp ho with h | h
      · subst h
        simp at hc
      · exact List.mem_cons.mpr (Or.inr (ih o h c hc))
    · rcases hsp : splitOnPipe cs with _ | ⟨h0, t0⟩
      · exact absurd hsp (splitOnPipe_ne_nil cs)
      · rw [hsp] at ho
        rcases List.mem_cons.mp ho with h | h
        · subst h
          rcases List.mem_cons.mp hc with h | h
          · simp [h]
          · have h0m : h0 ∈ splitOnPipe cs := by rw [hsp]; simp
            exact List.mem_cons.mpr (Or.inr (ih h0 h0m c h))
        · have hm : o ∈ splitOnPipe cs := by rw [hsp]; simp [h]
          exact List.mem_cons.mpr (Or.inr (ih o hm c hc))

/-- Characters of the chosen (trimmed) option come from the group content. -/
theorem chosen_subset (content : Str) (i : Nat) :
    ∀ c ∈ trimEnds ((splitOnPipe content).getD i []), c ∈ content := by
  intro c hc
  have hc' : c ∈ (splitOnPipe content).getD i [] :=
    (trimEnds_sublist _).mem hc
  rcases h : (splitOnPipe content).get? i with _ | o
  · rw [List.getD, h] at hc'
    simp at hc'
  · rw [List.getD, h] at hc'
    exact splitOnPipe_subset o (List.get?_mem h) c hc'

/-- A replacement with no dollar character expands to itself. -/
theorem expandRepl_no_dollar (m b a : Str) :
    ∀ {repl : Str}, '$' ∉ repl → expandRepl m b a repl = repl := by
  intro repl
  induction repl with
  | nil => intro _; rfl
  | cons c rest ih =>
    intro hd
    have hc : c ≠ '$' := fun he => hd (by simp [he])
    have hrest : '$' ∉ rest := fun hm => hd (by simp [hm])
    cases rest with
    | nil => rfl
    | cons d r =>
      rw [expandRepl, if_neg hc]
      rw [ih hrest]

/-- Over dollar-free group content, the replacement step is the literal
splice of the trimmed option. -/
theorem spintaxStep_eq_of_no_dollar (k : Nat) (pre : Str) {content : Str}
    (suf : Str) (hd : '$' ∉ content) :
    spintaxStep k pre content suf =
      pre ++ trimEnds ((splitOnPipe content).getD
        (k % (splitOnPipe content).length) []) ++ suf := by
  have hch : '$' ∉ trimEnds ((splitOnPipe content).getD
      (k % (splitOnPipe content).length) []) :=
    fun hm => hd (chosen_subset content _ '$' hm)
  simp only [spintaxStep]
  rw [expandRepl_no_dollar _ _ _ hch]

/-- Each rewrite step of `parseSpintax` over dollar-free content removes one
opening brace. -/
theorem spintaxStep_countOpen (pre : Str) {content : Str} (suf : Str) (k : Nat)
    (hbf : braceFree content = true) (hd : '$' ∉ content) :
    countOpen (spintaxStep k pre content suf) + 1 =
      countOpen (pre ++ '{' :: (content ++ '}' :: suf)) := by
  have hchosen : braceFree ((splitOnPipe content).getD
      (k % (splitOnPipe content).length) []) = true := by
    rcases h : (splitOnPipe content).get? (k % (splitOnPipe content).length) with _ | o
    · rw [List.getD, h]
      simp [braceFree]
    · rw [List.getD, h]
      exact splitOnPipe_braceFree hbf o (List.get?_mem h)
  have htrim := countOpen_eq_zero_of_braceFree (trimEnds_braceFree hchosen)
  have hcont := countOpen_eq_zero_of_braceFree hbf
  have hite1 : (if ('{' : Char) = '{' then (1 : Nat) else 0) = 1 := if_pos rfl
  have hite2 : (if ('}' : Char) = '{' then (1 : Nat) else 0) = 0 := if_neg (by decide)
  rw [spintaxStep_eq_of_no_dollar k pre suf hd]
  rw [countOpen_append, countOpen_append, htrim, countOpen_append, countOpen_cons,
    countOpen_append, countOpen_cons, hcont, hite1, hite2]
  omega

/-- The parts of a matched decomposition of a dollar-free string are
dollar-free. -/
theorem no_dollar_parts {s pre content suf : Str}
    (hdec : s = pre ++ '{' :: (content ++ '}' :: suf)) (h : '$' ∉ s) :
    '$' ∉ pre ∧ '$' ∉ content ∧ '$' ∉ suf := by
  subst hdec
  refine ⟨fun hm => h ?_, fun hm => h ?_, fun hm => h ?_⟩ <;> simp [hm]

/-- The rewrite step keeps a dollar-free state dollar-free. -/
theorem spintaxStep_no_dollar (k : Nat) {pre content suf : Str}
    (hdp : '$' ∉ pre) (hdg : '$' ∉ content) (hds : '$' ∉ suf) :
    '$' ∉ spintaxStep k pre content suf := by
  rw [spintaxStep_eq_of_no_dollar k pre suf hdg]
  intro hm
  rcases List.mem_append.mp hm with hm | hm
  · rcases List.mem_append.mp hm with hm | hm
    · exact hdp hm
    · exact hdg (chosen_subset content _ '$' hm)
  · exact hds hm

/-- On a dollar-free input the loop exits within `countOpen` steps and its
result admits no further match. -/
theorem parseSpintaxRun_no_dollar (fuel : Nat) :
    ∀ (ks : List Nat) (s : Str), countOpen s ≤ fuel → '$' ∉ s →
      (parseSpintaxRun fuel ks s).isSome = true ∧
      ∀ r, parseSpintaxRun fuel ks s = some r → findGroup r = none := by
  induction fuel with
  | zero =>
    intro ks s hle hd
    have hfg : findGroup s = none := by
      rcases hfg : findGroup s with _ | ⟨⟨pre, g, suf⟩⟩
      · rfl
      · obtain ⟨hdec, hbf, _⟩ := findGroup_some_spec hfg
        have : 0 < countOpen s := by
          rw [hdec, countOpen_append]
          simp [countOpen, List.countP_cons]
        omega
    simp only [parseSpintaxRun, hfg]
    refine ⟨rfl, fun r hr => ?_⟩
    cases hr
    exact hfg
  | succ n ih =>
    intro ks s hle hd
    rcases hfg : findGroup s with _ | ⟨⟨pre, g, suf⟩⟩
    · simp only [parseSpintaxRun, hfg]
      refine ⟨rfl, fun r hr => ?_⟩
      cases hr
      exact hfg
    · simp only [parseSpintaxRun, hfg]
      obtain ⟨hdec, hbf, _⟩ := findGroup_some_spec hfg
      obtain ⟨hdp, hdg, hds⟩ := no_dollar_parts hdec hd
      have hstep := spintaxStep_countOpen pre suf (ks.headD 0) hbf hdg
      rw [← hdec] at hstep
      exact ih ks.tail _ (by omega) (spintaxStep_no_dollar (ks.headD 0) hdp hdg hds)

/-- Once the loop has exited, more fuel does not change the result. -/
theorem parseSpintaxRun_mono :
    ∀ (fuel fuel' : Nat) (ks : List Nat) (s r : Str),
      parseSpintaxRun fuel ks s = some r → fuel ≤ fuel' →
      parseSpintaxRun fuel' ks s = some r := by
  intro fuel
  induction fuel with
  | zero =>
    intro fuel' ks s r h _
    rcases hfg : findGroup s with _ | ⟨⟨pre, g, suf⟩⟩
    · simp only [parseSpintaxRun, hfg] at h
      cases fuel' <;> simp only [parseSpintaxRun, hfg] <;> exact h
    · simp only [parseSpintaxRun, hfg] at h
      exact absurd h (by simp)
  | succ n ih =>
    intro fuel' ks s r h hle
    cases fuel' with
    | zero => exact absurd hle (by omega)
    | succ m =>
      rcases hfg : findGroup s with _ | ⟨⟨pre, g, suf⟩⟩
      · simp only [parseSpintaxRun, hfg] at h ⊢
        exact h
      · simp only [parseSpintaxRun, hfg] at h ⊢
        exact ih m ks.tail _ r h (by omega)

/-- When the loop exits within the given fuel, the loop-state view
`parseSpintaxAux` computes exactly the loop's result. -/
theorem parseSpintaxRun_eq_aux :
    ∀ (fuel : Nat) (ks : List Nat) (s : Str),
      (parseSpintaxRun fuel ks s).isSome = true →
      parseSpintaxRun fuel ks s = some (parseSpintaxAux fuel ks s) := by
  intro fuel
  induction fuel with
  | zero =>
    intro ks s h
    rcases hfg : findGroup s with _ | ⟨⟨pre, g, suf⟩⟩
    · simp only [parseSpintaxRun, parseSpintaxAux, hfg]
    · simp only [parseSpintaxRun, hfg] at h
      simp at h
  | succ n ih =>
    intro ks s h
    rcases hfg : findGroup s with _ | ⟨⟨pre, g, suf⟩⟩
    · simp only [parseSpintaxRun, parseSpintaxAux, hfg]
    · simp only [parseSpintaxRun, parseSpintaxAux, hfg] at h ⊢
      exact ih ks.tail _ h

/-! ## Lemmas about spintax validation -/

/-- Signed weight of a character for brace-balance accounting. -/
def braceWt (c : Char) : Int :=
  if c = '{' then 1 else if c = '}' then -1 else 0

/-- Running brace depth after consuming a whole string. -/
def depthAfter (s : Str) : Int := (s.map braceWt).sum

/-- Specification-level balance: no prefix closes more braces than were
opened, and the string ends with all braces closed. -/
def BracesBalanced (s : Str) : Prop :=
  (∀ n, 0 ≤ depthAfter (s.take n)) ∧ depthAfter s = 0

theorem depthAfter_nil : depthAfter [] = 0 := by
  simp [depthAfter]

theorem depthAfter_cons (c : Char) (t : Str) :
    depthAfter (c :: t) = braceWt c + depthAfter t := by
  simp [depthAfter]

theorem braceErrors_nil_balanced {s : Str} :
    ∀ {n : Nat}, braceErrors s n = [] →
    (∀ k, 0 ≤ (n : Int) + depthAfter (s.take k)) ∧ (n : Int) + depthAfter s = 0 := by
  induction s with
  | nil =>
    intro n h
    simp only [braceErrors] at h
    have hn : n = 0 := by
      by_contra hne
      rw [if_pos (by omega)] at h
      exact absurd h (by simp)
    subst hn
    refine ⟨fun k => ?_, by simp [depthAfter_nil]⟩
    simp [depthAfter_nil]
  | cons c cs ih =>
    intro n h
    rw [braceErrors] at h
    by_cases hc : c = '{'
    · rw [if_pos hc] at h
      obtain ⟨h1, h2⟩ := ih h
      have hw : braceWt c = 1 := by simp [braceWt, hc]
      refine ⟨fun k => ?_, ?_⟩
      · cases k with
        | zero =>
          simp only [List.take_zero, depthAfter_nil, add_zero]
          omega
        | succ k' =>
          have hp := h1 k'
          rw [List.take_succ_cons, depthAfter_cons, hw]
          push_cast at hp ⊢
          omega
      · rw [depthAfter_cons, hw]
        push_cast at h2 ⊢
        omega
    · rw [if_neg hc] at h
      by_cases hc2 : c = '}'
      · rw [if_pos hc2] at h
        have hw : braceWt c = -1 := by simp [braceWt, hc, hc2]
        rcases n with _ | m
        · rw [if_pos rfl] at h
          exact absurd h (by simp)
        · rw [if_neg (by omega)] at h
          have hsub : m + 1 - 1 = m := by omega
          rw [hsub] at h
          obtain ⟨h1, h2⟩ := ih h
          refine ⟨fun k => ?_, ?_⟩
          · cases k with
            | zero =>
              simp only [List.take_zero, depthAfter_nil, add_zero]
              omega
            | succ k' =>
              have hp := h1 k'
              rw [List.take_succ_cons, depthAfter_cons, hw]
              push_cast at hp ⊢
              omega
          · rw [depthAfter_cons, hw]
            push_cast at h2 ⊢
            omega
      · rw [if_neg hc2] at h
        have hw : braceWt c = 0 := by simp [braceWt, hc, hc2]
        obtain ⟨h1, h2⟩ := ih h
        refine ⟨fun k => ?_, ?_⟩
        · cases k with
          | zero =>
            simp only [List.take_zero, depthAfter_nil, add_zero]
            omega
          | succ k' =>
            have hp := h1 k'
            rw [List.take_succ_cons, depthAfter_cons, hw]
            omega
        · rw [depthAfter_cons, hw]
          omega

theorem validateSpintax_invalid_of_unbalanced {s : Str}
    (h : ¬ BracesBalanced s) : (validateSpintax s).1 = false := by
  have hbe : braceErrors s 0 ≠ [] := by
    intro hnil
    obtain ⟨h1, h2⟩ := braceErrors_nil_balanced hnil
    exact h ⟨fun n => by simpa using h1 n, by simpa using h2⟩
  simp only [validateSpintax]
  rcases hb : braceErrors s 0 with _ | ⟨e, es⟩
  · exact absurd hb hbe
  · simp

theorem findGroup_none_no_marker {s : Str} (h : findGroup s = none) :
    ¬ HasMarker s := by
  intro hm
  have := findGroup_isSome_of_marker hm
  rw [h] at this
  simp at this

/-! ## Data model (`shared/schema.ts`)

Records carry the columns of the Drizzle schema; timestamps are modelled as
abstract `Nat` instants and nullable columns as `Option`. -/

/-- Contacts table row. -/
structure Contact where
  id : String
  name : Str
  phone : Str
  email : Option Str
  groups : Option (List String)
  metadata : Option (List (Str × Str))
  createdAt : Option Nat
deriving DecidableEq

/-- WhatsApp sessions table row. -/
structure WhatsappSession where
  id : String
  sessionId : String
  phone : Option String
  status : String
  qrCode : Option String
  lastSeen : Option Nat
  createdAt : Option Nat
deriving DecidableEq

/-- Campaigns table row. -/
structure Campaign where
  id : String
  name : Str
  message : Str
  contactGroups : Option (List String)
  mediaUrl : Option String
  mediaType : Option String
  status : String
  scheduledAt : Option Nat
  rateLimit : Nat
  totalRecipients : Nat
  messagesSent : Nat
  messagesDelivered : Nat
  messagesResponded : Nat
  sessionId : Option String
  createdAt : Option Nat
deriving DecidableEq

/-- Auto-reply rules table row. -/
structure AutoReplyRule where
  id : String
  name : Str
  keywords : List Str
  triggerType : String
  response : Str
  delay : Option Nat
  isActive : Option Bool
  businessHoursOnly : Option Bool
  businessHoursStart : Option String
  businessHoursEnd : Option String
  sessionId : Option String
  createdAt : Option Nat
deriving DecidableEq

/-- Message queue table row. -/
structure MessageQueue where
  id : String
  campaignId : Option String
  contactId : Option String
  message : Str
  mediaUrl : Option String
  mediaType : Option String
  status : String
  scheduledAt : Option Nat
  sentAt : Option Nat
  deliveredAt : Option Nat
  errorMessage : Option Str
  sessionId : Option String
  createdAt : Option Nat
deriving DecidableEq

/-! ## Message personalizer (`personalizeMessage` in `scheduler.ts`) -/

/-- JS-faithful personalization: `{name}` falls back to `'there'`, `{phone}`
and `{email}` to the empty string, then each metadata key is substituted in
object-key order.  A placeholder whose key does not occur anywhere is left
untouched, because no `replace` call ever targets it. -/
def personalizeMessage (template : Str) (contact : Contact) : Str :=
  let m1 := replaceAll (ph ("name".data)) (jsStrOr contact.name ("there".data)) template
  let m2 := replaceAll (ph ("phone".data)) (jsStrOr contact.phone []) m1
  let m3 := replaceAll (ph ("email".data)) (jsOptOr contact.email []) m2
  match contact.metadata with
  | none => m3
  | some md => md.foldl (fun msg kv => replaceAll (ph kv.1) (jsStrOr kv.2 []) msg) m3

/-! ## Auto-reply trigger matching (`checkAutoReplyTrigger` in `whatsapp.ts`) -/

/-- Trigger evaluation: the `switch` on `rule.triggerType`; any unrecognized
trigger type (including `first_message`) falls to `default: return false`. -/
def checkAutoReplyTrigger (messageText : Str) (rule : AutoReplyRule) : Bool :=
  let text := lowerStr messageText
  if rule.triggerType = "contains" then
    rule.keywords.any (fun k => hasSub text (lowerStr k))
  else if rule.triggerType = "exact" then
    rule.keywords.any (fun k => text = lowerStr k)
  else if rule.triggerType = "starts_with" then
    rule.keywords.any (fun k => (stripLead (lowerStr k) text).isSome)
  else if rule.triggerType = "ends_with" then
    rule.keywords.any (fun k => (stripLead (lowerStr k).reverse text.reverse).isSome)
  else if rule.triggerType = "any" then true
  else false

/-! ## Scheduler date handling (`dateToCronExpression` in `scheduler.ts`) -/

/-- Calendar instant as read through the JS `Date` accessors; `month` is the
one-based calendar month (the source computes `getMonth() + 1`). -/
structure SimpleDate where
  year : Nat
  month : Nat
  day : Nat
  hour : Nat
  minute : Nat
deriving DecidableEq

/-- Cron expression `minute hour day month *` built by the scheduler.  The
source also reads `date.getFullYear()` but never places it in the expression,
and the day-of-week field is the wildcard `*`. -/
structure CronExpr where
  minute : Nat
  hour : Nat
  day : Nat
  month : Nat
deriving DecidableEq

/-- Conversion of a single future timestamp into a cron expression
(`dateToCronExpression`): the year is dropped. -/
def dateToCronExpression (d : SimpleDate) : CronExpr :=
  { minute := d.minute, hour := d.hour, day := d.day, month := d.month }

/-- Firing semantics of a `minute hour day month *` cron schedule: the task
fires at every instant whose minute, hour, day and month match, in any year. -/
def cronMatches (e : CronExpr) (t : SimpleDate) : Bool :=
  t.minute = e.minute && t.hour = e.hour && t.day = e.day && t.month = e.month

/-! ## In-memory storage (`MemStorage` in `server/storage.ts`)

JS `Map` objects are modelled as association lists in insertion order:
`set` on an existing key updates in place, otherwise appends; `values()`
returns the values in insertion order. -/

/-- Lookup in a JS `Map`. -/
def mapGet {α : Type} (k : String) : List (String × α) → Option α
  | [] => none
  | (k', v) :: r => if k' = k then some v else mapGet k r

/-- Update/insert in a JS `Map`, preserving insertion order. -/
def mapSet {α : Type} (k : String) (v : α) : List (String × α) → List (String × α)
  | [] => [(k, v)]
  | (k', v') :: r => if k' = k then (k, v) :: r else (k', v') :: mapSet k v r

/-- JS `Array.from(map.values())`. -/
def mapValues {α : Type} (m : List (String × α)) : List α := m.map Prod.snd

theorem mapGet_mapSet_self {α : Type} (k : String) (v : α)
    (m : List (String × α)) : mapGet k (mapSet k v m) = some v := by
  induction m with
  | nil => simp [mapSet, mapGet]
  | cons p r ih =>
    rcases p with ⟨k', v'⟩
    simp only [mapSet]
    split
    · simp [mapGet]
    · rename_i hne
      simp only [mapGet]
      rw [if_neg hne]
      exact ih

theorem mapGet_mapSet_ne {α : Type} {k k' : String} (v : α)
    (m : List (String × α)) (h : k' ≠ k) :
    mapGet k' (mapSet k v m) = mapGet k' m := by
  induction m with
  | nil =>
    simp only [mapSet, mapGet]
    rw [if_neg (fun he => h he.symm)]
  | cons p r ih =>
    rcases p with ⟨k0, v0⟩
    simp only [mapSet]
    split
    · rename_i he
      subst he
      simp only [mapGet]
      rw [if_neg (fun he2 => h he2.symm), if_neg (fun he2 => h he2.symm)]
    · simp only [mapGet]
      split
      · rfl
      · exact ih

/-- Counting values satisfying a predicate changes by at most one under a
single `Map.set`. -/
theorem countP_mapValues_mapSet_le {α : Type} (p : α → Bool) (k : String)
    (v : α) (m : List (String × α)) :
    (mapValues (mapSet k v m)).countP p ≤ (mapValues m).countP p + 1 := by
  induction m with
  | nil =>
    simp [mapSet, mapValues, List.countP_cons]
    split <;> omega
  | cons q r ih =>
    rcases q with ⟨k0, v0⟩
    simp only [mapSet]
    split
    · simp only [mapValues, List.map_cons, List.countP_cons]
      have h1 : (if p v = true then 1 else 0) ≤ 1 := by split <;> omega
      have h2 : (0 : Nat) ≤ (if p v0 = true then 1 else 0) := by omega
      omega
    · simp only [mapValues, List.map_cons, List.countP_cons]
      simp only [mapValues] at ih
      omega

/-! ## Partial update records (`Partial<T>` arguments of the update methods)

Each field is optional; `applyXUpdate` is the JS object spread
`{ ...record, ...update }` restricted to well-typed partial updates. -/

/-- Partial update for contacts. -/
structure ContactUpdate where
  id : Option String := none
  name : Option Str := none
  phone : Option Str := none
  email : Option (Option Str) := none
  groups : Option (Option (List String)) := none
  metadata : Option (Option (List (Str × Str))) := none
  createdAt : Option (Option Nat) := none
deriving DecidableEq

/-- Spread merge for contacts. -/
def applyContactUpdate (c : Contact) (u : ContactUpdate) : Contact where
  id := u.id.getD c.id
  name := u.name.getD c.name
  phone := u.phone.getD c.phone
  email := u.email.getD c.email
  groups := u.groups.getD c.groups
  metadata := u.metadata.getD c.metadata
  createdAt := u.createdAt.getD c.createdAt

/-- Partial update for sessions. -/
structure SessionUpdate where
  id : Option String := none
  sessionId : Option String := none
  phone : Option (Option String) := none
  status : Option String := none
  qrCode : Option (Option String) := none
  lastSeen : Option (Option Nat) := none
  createdAt : Option (Option Nat) := none
deriving DecidableEq

/-- Spread merge for sessions. -/
def applySessionUpdate (s : WhatsappSession) (u : SessionUpdate) : WhatsappSession where
  id := u.id.getD s.id
  sessionId := u.sessionId.getD s.sessionId
  phone := u.phone.getD s.phone
  status := u.status.getD s.status
  qrCode := u.qrCode.getD s.qrCode
  lastSeen := u.lastSeen.getD s.lastSeen
  createdAt := u.createdAt.getD s.createdAt

/-- Partial update for campaigns. -/
structure CampaignUpdate where
  id : Option String := none
  name : Option Str := none
  message : Option Str := none
  contactGroups : Option (Option (List String)) := none
  mediaUrl : Option (Option String) := none
  mediaType : Option (Option String) := none
  status : Option String := none
  scheduledAt : Option (Option Nat) := none
  rateLimit : Option Nat := none
  totalRecipients : Option Nat := none
  messagesSent : Option Nat := none
  messagesDelivered : Option Nat := none
  messagesResponded : Option Nat := none
  sessionId : Option (Option String) := none
  createdAt : Option (Option Nat) := none
deriving DecidableEq

/-- Spread merge for campaigns. -/
def applyCampaignUpdate (c : Campaign) (u : CampaignUpdate) : Campaign where
  id := u.id.getD c.id
  name := u.name.getD c.name
  message := u.message.getD c.message
  contactGroups := u.contactGroups.getD c.contactGroups
  mediaUrl := u.mediaUrl.getD c.mediaUrl
  mediaType := u.mediaType.getD c.mediaType
  status := u.status.getD c.status
  scheduledAt := u.scheduledAt.getD c.scheduledAt
  rateLimit := u.rateLimit.getD c.rateLimit
  totalRecipients := u.totalRecipients.getD c.totalRecipients
  messagesSent := u.messagesSent.getD c.messagesSent
  messagesDelivered := u.messagesDelivered.getD c.messagesDelivered
  messagesResponded := u.messagesResponded.getD c.messagesResponded
  sessionId := u.sessionId.getD c.sessionId
  createdAt := u.createdAt.getD c.createdAt

/-- Partial update for auto-reply rules. -/
structure AutoReplyRuleUpdate where
  id : Option String := none
  name : Option Str := none
  keywords : Option (List Str) := none
  triggerType : Option String := none
  response : Option Str := none
  delay : Option (Option Nat) := none
  isActive : Option (Option Bool) := none
  businessHoursOnly : Option (Option Bool) := none
  businessHoursStart : Option (Option String) := none
  businessHoursEnd : Option (Option String) := none
  sessionId : Option (Option String) := none
  createdAt : Option (Option Nat) := none
deriving DecidableEq

/-- Spread merge for auto-reply rules. -/
def applyAutoReplyRuleUpdate (r : AutoReplyRule) (u : AutoReplyRuleUpdate) :
    AutoReplyRule where
  id := u.id.getD r.id
  name := u.name.getD r.name
  keywords := u.keywords.getD r.keywords
  triggerType := u.triggerType.getD r.triggerType
  response := u.response.getD r.response
  delay := u.delay.getD r.delay
  isActive := u.isActive.getD r.isActive
  businessHoursOnly := u.businessHoursOnly.getD r.businessHoursOnly
  businessHoursStart := u.businessHoursStart.getD r.businessHoursStart
  businessHoursEnd := u.businessHoursEnd.getD r.businessHoursEnd
  sessionId := u.sessionId.getD r.sessionId
  createdAt := u.createdAt.getD r.createdAt

/-- Partial update for queued messages. -/
structure MessageQueueUpdate where
  id : Option String := none
  campaignId : Option (Option String) := none
  contactId : Option (Option String) := none
  message : Option Str := none
  mediaUrl : Option (Option String) := none
  mediaType : Option (Option String) := none
  status : Option String := none
  scheduledAt : Option (Option Nat) := none
  sentAt : Option (Option Nat) := none
  deliveredAt : Option (Option Nat) := none
  errorMessage : Option (Option Str) := none
  sessionId : Option (Option String) := none
  createdAt : Option (Option Nat) := none
deriving DecidableEq

/-- Spread merge for queued messages. -/
def applyMessageQueueUpdate (m : MessageQueue) (u : MessageQueueUpdate) :
    MessageQueue where
  id := u.id.getD m.id
  campaignId := u.campaignId.getD m.campaignId
  contactId := u.contactId.getD m.contactId
  message := u.message.getD m.message
  mediaUrl := u.mediaUrl.getD m.mediaUrl
  mediaType := u.mediaType.getD m.mediaType
  status := u.status.getD m.status
  scheduledAt := u.scheduledAt.getD m.scheduledAt
  sentAt := u.sentAt.getD m.sentAt
  deliveredAt := u.deliveredAt.getD m.deliveredAt
  errorMessage := u.errorMessage.getD m.errorMessage
  sessionId := u.sessionId.getD m.sessionId
  createdAt := u.createdAt.getD m.createdAt

/-- The full in-memory store (message analytics are not modelled; no claim
touches them).  `nextId` drives fresh id generation, standing in for
`randomUUID`. -/
structure MemStorage where
  contacts : List (String × Contact)
  sessions : List (String × WhatsappSession)
  campaigns : List (String × Campaign)
  autoReplyRules : List (String × AutoReplyRule)
  messageQueue : List (String × MessageQueue)
  nextId : Nat
deriving DecidableEq

/-- Fresh id generator standing in for `randomUUID`: injective, so distinct
draws never collide. -/
def freshId (n : Nat) : String := String.mk (List.replicate (n + 1) '#')

theorem freshId_inj {a b : Nat} (h : freshId a = freshId b) : a = b := by
  have hdata : List.replicate (a + 1) '#' = List.replicate (b + 1) '#' := by
    have := congrArg String.data h
    simpa [freshId] using this
  have hd := congrArg List.length hdata
  simp at hd
  exact hd

/-! Storage operations, one per `MemStorage` method used by the services. -/

/-- `getContacts`. -/
def getContacts (st : MemStorage) : List Contact := mapValues st.contacts

/-- `getContact`. -/
def getContact (st : MemStorage) (id : String) : Option Contact :=
  mapGet id st.contacts

/-- `getContactsByGroups`: contacts whose group list intersects the filter
(`contact.groups?.some(g => groups.includes(g))`; a null group list is
falsy and the contact is dropped). -/
def getContactsByGroups (st : MemStorage) (gs : List String) : List Contact :=
  (mapValues st.contacts).filter (fun c =>
    match c.groups with
    | some cg => cg.any (fun g => gs.contains g)
    | none => false)

/-- `getSessions`. -/
def getSessions (st : MemStorage) : List WhatsappSession := mapValues st.sessions

/-- `getCampaign`. -/
def getCampaign (st : MemStorage) (id : String) : Option Campaign :=
  mapGet id st.campaigns

/-- `getMessageQueue` with no session filter. -/
def getMessageQueue (st : MemStorage) : List MessageQueue :=
  mapValues st.messageQueue

/-- `getPendingMessages`: pending entries of one session. -/
def getPendingMessages (st : MemStorage) (sessionId : String) : List MessageQueue :=
  (mapValues st.messageQueue).filter (fun m =>
    m.sessionId == some sessionId && m.status == "pending")

/-- `updateContact`: returns the updated record, or `undefined` leaving the
store untouched when the id is unknown. -/
def updateContact (st : MemStorage) (id : String) (u : ContactUpdate) :
    MemStorage × Option Contact :=
  match mapGet id st.contacts with
  | none => (st, none)
  | some c =>
    let upd := applyContactUpdate c u
    ({ st with contacts := mapSet id upd st.contacts }, some upd)

/-- `updateSession`. -/
def updateSession (st : MemStorage) (id : String) (u : SessionUpdate) :
    MemStorage × Option WhatsappSession :=
  match mapGet id st.sessions with
  | none => (st, none)
  | some s =>
    let upd := applySessionUpdate s u
    ({ st with sessions := mapSet id upd st.sessions }, some upd)

/-- `updateCampaign`. -/
def updateCampaign (st : MemStorage) (id : String) (u : CampaignUpdate) :
    MemStorage × Option Campaign :=
  match mapGet id st.campaigns with
  | none => (st, none)
  | some c =>
    let upd := applyCampaignUpdate c u
    ({ st with campaigns := mapSet id upd st.campaigns }, some upd)

/-- `updateAutoReplyRule`. -/
def updateAutoReplyRule (st : MemStorage) (id : String) (u : AutoReplyRuleUpdate) :
    MemStorage × Option AutoReplyRule :=
  match mapGet id st.autoReplyRules with
  | none => (st, none)
  | some r =>
    let upd := applyAutoReplyRuleUpdate r u
    ({ st with autoReplyRules := mapSet id upd st.autoReplyRules }, some upd)

/-- `updateQueuedMessage`. -/
def updateQueuedMessage (st : MemStorage) (id : String) (u : MessageQueueUpdate) :
    MemStorage × Option MessageQueue :=
  match mapGet id st.messageQueue with
  | none => (st, none)
  | some m =>
    let upd := applyMessageQueueUpdate m u
    ({ st with messageQueue := mapSet id upd st.messageQueue }, some upd)

/-- Arguments of `createQueuedMessage` (the insert schema without generated
columns). -/
structure InsertMessageQueue where
  campaignId : Option String
  contactId : Option String
  message : Str
  mediaUrl : Option String
  mediaType : Option String
  status : String
  scheduledAt : Option Nat
  errorMessage : Option Str
  sessionId : Option String
deriving DecidableEq

/-- JS `o || null` on an optional string: an empty string collapses to null. -/
def jsNormStr (o : Option String) : Option String :=
  match o with
  | none => none
  | some s => if s = "" then none else some s

/-- JS `o || null` on optional text. -/
def jsNormTxt (o : Option Str) : Option Str :=
  match o with
  | none => none
  | some s => if s = [] then none else some s

/-- `createQueuedMessage`: a fresh id is drawn, defaults are filled in
(`status || 'pending'`, nullable columns normalized with `|| null`; the
`scheduledAt` Date object is always truthy), and the record is inserted. -/
def createQueuedMessage (st : MemStorage) (now : Nat) (ins : InsertMessageQueue) :
    MemStorage × MessageQueue :=
  let id := freshId st.nextId
  let msg : MessageQueue :=
    { id := id
      campaignId := jsNormStr ins.campaignId
      contactId := jsNormStr ins.contactId
      message := ins.message
      mediaUrl := jsNormStr ins.mediaUrl
      mediaType := jsNormStr ins.mediaType
      status := if ins.status = "" then "pending" else ins.status
      scheduledAt := ins.scheduledAt
      sentAt := none
      deliveredAt := none
      errorMessage := jsNormTxt ins.errorMessage
      sessionId := jsNormStr ins.sessionId
      createdAt := some now }
  ({ st with messageQueue := mapSet id msg st.messageQueue, nextId := st.nextId + 1 },
    msg)

/-! ## Campaign expansion (`SchedulerService.processCampaign`) -/

/-- Failure oracle for expansion: either recipient resolution throws, or the
creation of the `k`-th queue entry (0-based) throws.  `MemStorage` itself is
total; these stand for the awaited storage promises rejecting. -/
inductive ExpansionFault where
  | resolveFail
  | createFail (k : Nat)
deriving DecidableEq

/-- Recipient resolution: all contacts when the group filter is null or
empty, otherwise the group-filtered contacts. -/
def resolveContacts (st : MemStorage) (campaign : Campaign) : List Contact :=
  match campaign.contactGroups with
  | none => getContacts st
  | some gs => if gs.isEmpty then getContacts st else getContactsByGroups st gs

/-- Per-recipient loop of `processCampaign`: render the body
(personalize, then spintax), create the queue entry; a `createFail i` fault
jumps to the `catch` block, which marks the campaign failed and aborts the
loop, leaving the entries already created in place. -/
def expandLoop (now : Nat) (ks : List Nat) (fault : Option ExpansionFault)
    (campaign : Campaign) : List Contact → Nat → MemStorage → MemStorage
  | [], _, st => st
  | contact :: rest, i, st =>
    if fault = some (ExpansionFault.createFail i) then
      (updateCampaign st campaign.id { status := some "failed" }).1
    else
      let body := parseSpintax ks (personalizeMessage campaign.message contact)
      let st' := (createQueuedMessage st now
        { campaignId := some campaign.id
          contactId := some contact.id
          message := body
          mediaUrl := campaign.mediaUrl
          mediaType := campaign.mediaType
          status := "pending"
          scheduledAt := some now
          errorMessage := none
          sessionId := campaign.sessionId }).1
      expandLoop now ks fault campaign rest (i + 1) st'

/-- `processCampaign`: mark sending, resolve recipients, store
`totalRecipients`, then create one pending entry per recipient; any fault
diverts to the `catch` block that marks the campaign failed. -/
def processCampaign (now : Nat) (ks : List Nat) (fault : Option ExpansionFault)
    (campaign : Campaign) (st : MemStorage) : MemStorage :=
  let st1 := (updateCampaign st campaign.id { status := some "sending" }).1
  if fault = some ExpansionFault.resolveFail then
    (updateCampaign st1 campaign.id { status := some "failed" }).1
  else
    let contacts := resolveContacts st1 campaign
    let st2 := (updateCampaign st1 campaign.id
      { totalRecipients := some contacts.length }).1
    expandLoop now ks fault campaign contacts 0 st2

/-! ## Dispatch loop (`SchedulerService.processQueuedMessages`) -/

/-- Effective rate limit used by a tick: the campaign referenced by the
inspected entry (`campaign?.rateLimit || 30`); null campaign id, missing
campaign, or a falsy configured limit of `0` all yield the default 30. -/
def effRate (st : MemStorage) (m : MessageQueue) : Nat :=
  match m.campaignId with
  | none => 30
  | some cid =>
    match getCampaign st cid with
    | none => 30
    | some c => if c.rateLimit = 0 then 30 else c.rateLimit

/-- Processing of one batch entry: look up the contact (a missing contact is
skipped with `continue`), send through the gateway (`ok` is the send oracle),
then on success mark the entry sent and bump the owning campaign's
`messagesSent`; on failure mark the entry failed with the error detail. -/
def processMessage (now : Nat) (ok : Bool) (m : MessageQueue) (st : MemStorage) :
    MemStorage :=
  match m.contactId.bind (fun cid => getContact st cid) with
  | none => st
  | some _contact =>
    if ok then
      let st1 := (updateQueuedMessage st m.id
        { status := some "sent", sentAt := some (some now) }).1
      match m.campaignId with
      | none => st1
      | some cid =>
        match getCampaign st1 cid with
        | none => st1
        | some cur =>
          (updateCampaign st1 cid { messagesSent := some (cur.messagesSent + 1) }).1
    else
      (updateQueuedMessage st m.id
        { status := some "failed", errorMessage := some (some ("Unknown error".data)) }).1

/-- Sequential processing of a tick's batch; `oracle.getD i true` is the
send outcome of the `i`-th entry, and a failure never aborts the batch. -/
def processBatch (now : Nat) (oracle : List Bool) :
    List MessageQueue → Nat → MemStorage → MemStorage
  | [], _, st => st
  | m :: rest, i, st =>
    processBatch now oracle rest (i + 1) (processMessage now (oracle.getD i true) m st)

/-- `checkCampaignCompletion`: a campaign with no remaining pending entries
is marked completed. -/
def checkCampaignCompletion (st : MemStorage) (cid : String) : MemStorage :=
  match getCampaign st cid with
  | none => st
  | some _camp =>
    let campaignPending := (getMessageQueue st).filter (fun m =>
      m.campaignId == some cid && m.status == "pending")
    if campaignPending.isEmpty then
      (updateCampaign st cid { status := some "completed" }).1
    else st

/-- Per-session part of a tick: skip disconnected sessions, take up to the
effective rate limit of the first pending entry's campaign, process the
batch, then run the completion check for that first entry's campaign only. -/
def processSession (now : Nat) (oracle : List Bool) (session : WhatsappSession)
    (st : MemStorage) : MemStorage :=
  if session.status ≠ "connected" then st
  else
    match getPendingMessages st session.id with
    | [] => st
    | firstMsg :: restPending =>
      let rl := effRate st firstMsg
      let batch := (firstMsg :: restPending).take
        (min rl (firstMsg :: restPending).length)
      let stB := processBatch now oracle batch 0 st
      match firstMsg.campaignId with
      | some cid => checkCampaignCompletion stB cid
      | none => stB

/-- One tick of the dispatch loop: the session list is fetched once, then
each session is processed in order against the evolving store. -/
def processQueuedMessages (now : Nat) (oracle : List Bool) (st : MemStorage) :
    MemStorage :=
  (getSessions st).foldl (fun s sess => processSession now oracle sess s) st

/-! ## Campaign pause (`POST /api/campaigns/:id/pause` in `routes.ts`) -/

/-- The pause endpoint: sets the campaign status to `paused` and nothing
else. -/
def pauseCampaign (st : MemStorage) (id : String) : MemStorage :=
  (updateCampaign st id { status := some "paused" }).1

/-! ## Scheduling (`SchedulerService.scheduleCampaign`) -/

/-- Scheduler registry state: the set of armed cron tasks, keyed by campaign
id (`scheduledJobs`), where each task carries its cron expression and whether
the underlying cron job is still running. -/
structure SchedulerState where
  jobs : List (String × CronExpr)
deriving DecidableEq

/-- `scheduleCampaign`: no schedule or a past schedule expands immediately;
a future schedule registers a cron task built by `dateToCronExpression` and
marks the campaign scheduled.  `calendar` is the (uninterpreted) JS `Date`
decomposition of an instant into local calendar fields. -/
def scheduleCampaign (calendar : Nat → SimpleDate) (now : Nat) (ks : List Nat)
    (fault : Option ExpansionFault) (campaign : Campaign)
    (sched : SchedulerState) (st : MemStorage) : SchedulerState × MemStorage :=
  match campaign.scheduledAt with
  | none => (sched, processCampaign now ks fault campaign st)
  | some t =>
    if t ≤ now then (sched, processCampaign now ks fault campaign st)
    else
      let e := dateToCronExpression (calendar t)
      ({ jobs := mapSet campaign.id e sched.jobs },
        (updateCampaign st campaign.id { status := some "scheduled" }).1)

/-! ## Helper lemmas about the storage operations -/

theorem updateContact_none {st : MemStorage} {id : String} (u : ContactUpdate)
    (h : mapGet id st.contacts = none) : updateContact st id u = (st, none) := by
  simp [updateContact, h]

theorem updateContact_some {st : MemStorage} {id : String} {r : Contact}
    (u : ContactUpdate) (h : mapGet id st.contacts = some r) :
    updateContact st id u =
      ({ st with contacts := mapSet id (applyContactUpdate r u) st.contacts },
        some (applyContactUpdate r u)) := by
  simp [updateContact, h]

theorem updateSession_none {st : MemStorage} {id : String} (u : SessionUpdate)
    (h : mapGet id st.sessions = none) : updateSession st id u = (st, none) := by
  simp [updateSession, h]

theorem updateSession_some {st : MemStorage} {id : String} {r : WhatsappSession}
    (u : SessionUpdate) (h : mapGet id st.sessions = some r) :
    updateSession st id u =
      ({ st with sessions := mapSet id (applySessionUpdate r u) st.sessions },
        some (applySessionUpdate r u)) := by
  simp [updateSession, h]

theorem updateCampaign_none {st : MemStorage} {id : String} (u : CampaignUpdate)
    (h : mapGet id st.campaigns = none) : updateCampaign st id u = (st, none) := by
  simp [updateCampaign, h]

theorem updateCampaign_some {st : MemStorage} {id : String} {r : Campaign}
    (u : CampaignUpdate) (h : mapGet id st.campaigns = some r) :
    updateCampaign st id u =
      ({ st with campaigns := mapSet id (applyCampaignUpdate r u) st.campaigns },
        some (applyCampaignUpdate r u)) := by
  simp [updateCampaign, h]

theorem updateAutoReplyRule_none {st : MemStorage} {id : String}
    (u : AutoReplyRuleUpdate) (h : mapGet id st.autoReplyRules = none) :
    updateAutoReplyRule st id u = (st, none) := by
  simp [updateAutoReplyRule, h]

theorem updateAutoReplyRule_some {st : MemStorage} {id : String} {r : AutoReplyRule}
    (u : AutoReplyRuleUpdate) (h : mapGet id st.autoReplyRules = some r) :
    updateAutoReplyRule st id u =
      ({ st with
          autoReplyRules := mapSet id (applyAutoReplyRuleUpdate r u) st.autoReplyRules },
        some (applyAutoReplyRuleUpdate r u)) := by
  simp [updateAutoReplyRule, h]

theorem updateQueuedMessage_none {st : MemStorage} {id : String}
    (u : MessageQueueUpdate) (h : mapGet id st.messageQueue = none) :
    updateQueuedMessage st id u = (st, none) := by
  simp [updateQueuedMessage, h]

theorem updateQueuedMessage_some {st : MemStorage} {id : String} {r : MessageQueue}
    (u : MessageQueueUpdate) (h : mapGet id st.messageQueue = some r) :
    updateQueuedMessage st id u =
      ({ st with
          messageQueue := mapSet id (applyMessageQueueUpdate r u) st.messageQueue },
        some (applyMessageQueueUpdate r u)) := by
  simp [updateQueuedMessage, h]

theorem updateCampaign_contacts (st : MemStorage) (id : String) (u : CampaignUpdate) :
    (updateCampaign st id u).1.contacts = st.contacts := by
  unfold updateCampaign
  cases mapGet id st.campaigns <;> rfl

theorem updateCampaign_sessions (st : MemStorage) (id : String) (u : CampaignUpdate) :
    (updateCampaign st id u).1.sessions = st.sessions := by
  unfold updateCampaign
  cases mapGet id st.campaigns <;> rfl

theorem updateCampaign_messageQueue (st : MemStorage) (id : String)
    (u : CampaignUpdate) : (updateCampaign st id u).1.messageQueue = st.messageQueue := by
  unfold updateCampaign
  cases mapGet id st.campaigns <;> rfl

theorem updateCampaign_nextId (st : MemStorage) (id : String) (u : CampaignUpdate) :
    (updateCampaign st id u).1.nextId = st.nextId := by
  unfold updateCampaign
  cases mapGet id st.campaigns <;> rfl

theorem updateQueuedMessage_campaigns (st : MemStorage) (id : String)
    (u : MessageQueueUpdate) :
    (updateQueuedMessage st id u).1.campaigns = st.campaigns := by
  unfold updateQueuedMessage
  cases mapGet id st.messageQueue <;> rfl

theorem createQueuedMessage_campaigns (st : MemStorage) (now : Nat)
    (ins : InsertMessageQueue) :
    (createQueuedMessage st now ins).1.campaigns = st.campaigns := rfl

theorem createQueuedMessage_contacts (st : MemStorage) (now : Nat)
    (ins : InsertMessageQueue) :
    (createQueuedMessage st now ins).1.contacts = st.contacts := rfl

/-! ## Counting queue entries -/

/-- Number of queue entries belonging to a campaign. -/
def entryCount (st : MemStorage) (cid : String) : Nat :=
  ((getMessageQueue st).filter (fun m => m.campaignId == some cid)).length

/-- Number of a session's queue entries currently marked sent. -/
def sentCount (st : MemStorage) (sid : String) : Nat :=
  ((getMessageQueue st).filter (fun m =>
    m.sessionId == some sid && m.status == "sent")).length

/-- Number of a campaign's queue entries still pending. -/
def campaignPendingCount (st : MemStorage) (cid : String) : Nat :=
  ((getMessageQueue st).filter (fun m =>
    m.campaignId == some cid && m.status == "pending")).length

theorem entryCount_congr {st st' : MemStorage} (cid : String)
    (h : st.messageQueue = st'.messageQueue) : entryCount st cid = entryCount st' cid := by
  simp [entryCount, getMessageQueue, h]

theorem sentCount_congr {st st' : MemStorage} (sid : String)
    (h : st.messageQueue = st'.messageQueue) : sentCount st sid = sentCount st' sid := by
  simp [sentCount, getMessageQueue, h]

/-- All queue keys were generated by earlier draws of the fresh-id counter;
this models the collision-freedom of `randomUUID`. -/
def QueueKeysBelow (st : MemStorage) : Prop :=
  ∀ p ∈ st.messageQueue, ∃ j, j < st.nextId ∧ p.1 = freshId j

theorem mapSet_of_not_mem {α : Type} {k : String} (v : α)
    {m : List (String × α)} (h : ∀ p ∈ m, p.1 ≠ k) :
    mapSet k v m = m ++ [(k, v)] := by
  induction m with
  | nil => simp [mapSet]
  | cons q r ih =>
    rcases q with ⟨k0, v0⟩
    have hk0 : k0 ≠ k := h (k0, v0) (by simp)
    simp only [mapSet]
    rw [if_neg hk0]
    simp only [List.cons_append, List.cons.injEq, true_and]
    exact ih (fun p hp => h p (by simp [hp]))

theorem createQueuedMessage_queue {st : MemStorage} (now : Nat)
    (ins : InsertMessageQueue) (hkeys : QueueKeysBelow st) :
    (createQueuedMessage st now ins).1.messageQueue =
      st.messageQueue ++ [(freshId st.nextId, (createQueuedMessage st now ins).2)] := by
  have hfresh : ∀ p ∈ st.messageQueue, p.1 ≠ freshId st.nextId := by
    intro p hp he
    obtain ⟨j, hj, hpj⟩ := hkeys p hp
    rw [hpj] at he
    have := freshId_inj he
    omega
  simp only [createQueuedMessage]
  rw [mapSet_of_not_mem _ hfresh]

theorem createQueuedMessage_keys {st : MemStorage} (now : Nat)
    (ins : InsertMessageQueue) (hkeys : QueueKeysBelow st) :
    QueueKeysBelow (createQueuedMessage st now ins).1 := by
  intro p hp
  rw [createQueuedMessage_queue now ins hkeys] at hp
  rcases List.mem_append.mp hp with h | h
  · obtain ⟨j, hj, hpj⟩ := hkeys p h
    exact ⟨j, by simp [createQueuedMessage]; omega, hpj⟩
  · simp at h
    refine ⟨st.nextId, by simp [createQueuedMessage], ?_⟩
    rw [h]

theorem updateCampaign_keys {st : MemStorage} (id : String) (u : CampaignUpdate)
    (hkeys : QueueKeysBelow st) : QueueKeysBelow (updateCampaign st id u).1 := by
  intro p hp
  rw [updateCampaign_messageQueue] at hp
  obtain ⟨j, hj, hpj⟩ := hkeys p hp
  exact ⟨j, by rw [updateCampaign_nextId]; exact hj, hpj⟩

theorem createQueuedMessage_entryCount {st : MemStorage} {cid : String}
    (now : Nat) (ins : InsertMessageQueue) (hkeys : QueueKeysBelow st)
    (hcid : jsNormStr ins.campaignId = some cid) :
    entryCount (createQueuedMessage st now ins).1 cid = entryCount st cid + 1 := by
  simp only [entryCount, getMessageQueue]
  rw [createQueuedMessage_queue now ins hkeys]
  simp only [mapValues, List.map_append, List.filter_append, List.length_append]
  have hmatch : ((createQueuedMessage st now ins).2.campaignId == some cid) = true := by
    simp only [createQueuedMessage]
    simp [hcid]
  simp [hmatch]

theorem resolveContacts_congr {st st' : MemStorage} (campaign : Campaign)
    (h : st.contacts = st'.contacts) :
    resolveContacts st campaign = resolveContacts st' campaign := by
  simp [resolveContacts, getContacts, getContactsByGroups, h]

theorem jsNormStr_of_ne {x : String} (h : x ≠ "") :
    jsNormStr (some x) = some x := by
  simp [jsNormStr, h]

theorem expandLoop_clean (now : Nat) (ks : List Nat) (fault : Option ExpansionFault)
    (campaign : Campaign) (hid : campaign.id ≠ "")
    (hclean : ∀ k, fault ≠ some (ExpansionFault.createFail k)) :
    ∀ (contacts : List Contact) (i : Nat) (st : MemStorage), QueueKeysBelow st →
      (expandLoop now ks fault campaign contacts i st).campaigns = st.campaigns ∧
      entryCount (expandLoop now ks fault campaign contacts i st) campaign.id =
        entryCount st campaign.id + contacts.length := by
  intro contacts
  induction contacts with
  | nil =>
    intro i st _
    exact ⟨rfl, by simp [expandLoop]⟩
  | cons ct rest ih =>
    intro i st hkeys
    rw [expandLoop, if_neg (hclean i)]
    obtain ⟨ihc, ihn⟩ := ih (i + 1) _ (createQueuedMessage_keys now _ hkeys)
    refine ⟨?_, ?_⟩
    · rw [ihc, createQueuedMessage_campaigns]
    · rw [ihn, createQueuedMessage_entryCount now _ hkeys (jsNormStr_of_ne hid)]
      simp
      omega

theorem expandLoop_fail (now : Nat) (ks : List Nat) (campaign : Campaign)
    (hid : campaign.id ≠ "") (k : Nat) :
    ∀ (contacts : List Contact) (i : Nat) (st : MemStorage), QueueKeysBelow st →
      i ≤ k → k < i + contacts.length →
      ∃ stk : MemStorage,
        expandLoop now ks (some (ExpansionFault.createFail k)) campaign contacts i st =
          (updateCampaign stk campaign.id { status := some "failed" }).1 ∧
        stk.campaigns = st.campaigns ∧
        entryCount stk campaign.id = entryCount st campaign.id + (k - i) := by
  intro contacts
  induction contacts with
  | nil =>
    intro i st _ hle hlt
    simp at hlt
    omega
  | cons ct rest ih =>
    intro i st hkeys hle hlt
    by_cases hki : k = i
    · subst hki
      rw [expandLoop, if_pos rfl]
      exact ⟨st, rfl, rfl, by omega⟩
    · rw [expandLoop, if_neg (by simp [Option.some.injEq]; omega)]
      obtain ⟨stk, heq, hc, hcount⟩ := ih (i + 1) _
        (createQueuedMessage_keys now _ hkeys) (by omega)
        (by simp at hlt ⊢; omega)
      refine ⟨stk, heq, ?_, ?_⟩
      · rw [hc, createQueuedMessage_campaigns]
      · rw [hcount, createQueuedMessage_entryCount now _ hkeys (jsNormStr_of_ne hid)]
        omega

theorem sentCount_eq_countP (st : MemStorage) (sid : String) :
    sentCount st sid = (mapValues st.messageQueue).countP (fun m =>
      m.sessionId == some sid && m.status == "sent") := by
  simp [sentCount, getMessageQueue, List.countP_eq_length_filter]

theorem updateQueuedMessage_sentCount_le (st : MemStorage) (id : String)
    (u : MessageQueueUpdate) (sid : String) :
    sentCount (updateQueuedMessage st id u).1 sid ≤ sentCount st sid + 1 := by
  unfold updateQueuedMessage
  cases h : mapGet id st.messageQueue
  · simp
  · rename_i r
    dsimp only
    rw [sentCount_eq_countP, sentCount_eq_countP]
    exact countP_mapValues_mapSet_le _ id _ st.messageQueue

theorem updateCampaign_sentCount (st : MemStorage) (id : String)
    (u : CampaignUpdate) (sid : String) :
    sentCount (updateCampaign st id u).1 sid = sentCount st sid :=
  sentCount_congr sid (updateCampaign_messageQueue st id u)

theorem processMessage_sentCount_le (now : Nat) (ok : Bool) (m : MessageQueue)
    (st : MemStorage) (sid : String) :
    sentCount (processMessage now ok m st) sid ≤ sentCount st sid + 1 := by
  unfold processMessage
  cases m.contactId.bind (fun cid => getContact st cid)
  · simp
  · dsimp only
    by_cases hok : ok = true
    · rw [if_pos hok]
      have h1 := updateQueuedMessage_sentCount_le st m.id
        { status := some "sent", sentAt := some (some now) } sid
      cases m.campaignId
      · exact h1
      · rename_i cid
        dsimp only
        cases getCampaign (updateQueuedMessage st m.id
          { status := some "sent", sentAt := some (some now) }).1 cid
        · exact h1
        · rename_i cur
          dsimp only
          rw [updateCampaign_sentCount]
          exact h1
    · rw [if_neg hok]
      exact updateQueuedMessage_sentCount_le st m.id _ sid

theorem processBatch_sentCount_le (now : Nat) (oracle : List Bool) (sid : String) :
    ∀ (batch : List MessageQueue) (i : Nat) (st : MemStorage),
      sentCount (processBatch now oracle batch i st) sid ≤
        sentCount st sid + batch.length := by
  intro batch
  induction batch with
  | nil =>
    intro i st
    simp [processBatch]
  | cons m rest ih =>
    intro i st
    rw [processBatch]
    have h1 := ih (i + 1) (processMessage now (oracle.getD i true) m st)
    have h2 := processMessage_sentCount_le now (oracle.getD i true) m st sid
    simp only [List.length_cons]
    omega

theorem checkCampaignCompletion_messageQueue (st : MemStorage) (cid : String) :
    (checkCampaignCompletion st cid).messageQueue = st.messageQueue := by
  unfold checkCampaignCompletion
  cases getCampaign st cid
  · rfl
  · dsimp only
    split
    · rw [updateCampaign_messageQueue]
    · rfl

theorem processSession_eq_of_pending (now : Nat) (oracle : List Bool)
    (session : WhatsappSession) (st : MemStorage) (m : MessageQueue)
    (rest : List MessageQueue) (hconn : session.status = "connected")
    (hp : getPendingMessages st session.id = m :: rest) :
    processSession now oracle session st =
      (match m.campaignId with
       | some cid => checkCampaignCompletion
          (processBatch now oracle
            ((m :: rest).take (min (effRate st m) (m :: rest).length)) 0 st) cid
       | none => processBatch now oracle
          ((m :: rest).take (min (effRate st m) (m :: rest).length)) 0 st) := by
  unfold processSession
  rw [if_neg (by simp [hconn]), hp]

theorem processQueuedMessages_single (now : Nat) (oracle : List Bool)
    (st : MemStorage) (session : WhatsappSession)
    (hs : st.sessions = [(session.id, session)]) :
    processQueuedMessages now oracle st = processSession now oracle session st := by
  simp [processQueuedMessages, getSessions, hs, mapValues]

/-! ## Placeholder no-op lemmas for the personalizer -/

/-- Group content whose two options both carry the `$&` pattern. -/
def dollarContent : Str := "a$&|b$&".data

/-- The group built from that content: the whole input of the divergence
scenario. -/
def dollarMarker : Str := '{' :: (dollarContent ++ ['}'])

theorem findGroup_cons_flat {c : Char} (cs : Str) (hc : c ≠ '{') :
    findGroup (c :: cs) = prependGroup c (findGroup cs) := by
  rw [findGroup, if_neg (fun h => hc h.1)]

theorem findGroup_append_flat (s : Str) :
    ∀ {w : Str}, braceFree w = true →
    findGroup (w ++ s) =
      match findGroup s with
      | some (p, g, suf) => some (w ++ p, g, suf)
      | none => none := by
  intro w
  induction w with
  | nil =>
    intro _
    simp only [List.nil_append]
    rcases h : findGroup s with _ | ⟨⟨p, g, suf⟩⟩ <;> simp
  | cons c cs ih =>
    intro hw
    simp only [braceFree, List.all_cons, Bool.and_eq_true, decide_eq_true_eq] at hw
    have hcs : braceFree cs = true := hw.2
    rw [List.cons_append, findGroup_cons_flat _ hw.1.1, ih hcs]
    rcases h : findGroup s with _ | ⟨⟨p, g, suf⟩⟩ <;> simp [prependGroup]

theorem spintaxStep_def (k : Nat) (pre content suf : Str) :
    spintaxStep k pre content suf =
      pre ++ expandRepl ('{' :: (content ++ ['}'])) pre suf
        (trimEnds ((splitOnPipe content).getD
          (k % (splitOnPipe content).length) [])) ++ suf := rfl

theorem braceFree_append (a b : Str) :
    braceFree (a ++ b) = (braceFree a && braceFree b) := by
  simp [braceFree, List.all_append]

/-- One loop iteration on a state `w ++ dollarMarker`: the chosen option
expands `$&` to the matched group, so the marker survives with one more
leading character. -/
theorem dollarStep (k : Nat) (w : Str) :
    spintaxStep k w dollarContent [] =
      (w ++ [if k % 2 = 0 then 'a' else 'b']) ++ dollarMarker := by
  have hsp : splitOnPipe dollarContent = ["a$&".data, "b$&".data] := by decide
  have h2 : k % 2 = 0 ∨ k % 2 = 1 := by omega
  have hea : expandRepl dollarMarker w [] (trimEnds ("a$&".data)) =
      'a' :: (dollarMarker ++ []) := rfl
  have heb : expandRepl dollarMarker w [] (trimEnds ("b$&".data)) =
      'b' :: (dollarMarker ++ []) := rfl
  rw [spintaxStep_def, hsp]
  rw [show (["a$&".data, "b$&".data] : List Str).length = 2 from rfl]
  rcases h2 with hk | hk <;> rw [hk]
  · rw [show (["a$&".data, "b$&".data] : List Str).getD 0 [] = "a$&".data from rfl]
    rw [show ('{' :: (dollarContent ++ ['}'])) = dollarMarker from rfl, hea]
    simp
  · rw [show (["a$&".data, "b$&".data] : List Str).getD 1 [] = "b$&".data from rfl]
    rw [show ('{' :: (dollarContent ++ ['}'])) = dollarMarker from rfl, heb]
    simp

/-- The loop never exits from any state of the form `w ++ dollarMarker` with
`w` brace-free: every iteration reproduces such a state. -/
theorem parseSpintaxRun_dollar_none :
    ∀ (fuel : Nat) (ks : List Nat) (w : Str), braceFree w = true →
      parseSpintaxRun fuel ks (w ++ dollarMarker) = none := by
  intro fuel
  have hmark : findGroup dollarMarker = some ([], dollarContent, []) := by decide
  induction fuel with
  | zero =>
    intro ks w hw
    have hfg : findGroup (w ++ dollarMarker) = some (w, dollarContent, []) := by
      rw [findGroup_append_flat dollarMarker hw, hmark]
      simp
    simp only [parseSpintaxRun, hfg]
  | succ n ih =>
    intro ks w hw
    have hfg : findGroup (w ++ dollarMarker) = some (w, dollarContent, []) := by
      rw [findGroup_append_flat dollarMarker hw, hmark]
      simp
    simp only [parseSpintaxRun, hfg]
    rw [dollarStep]
    apply ih
    rw [braceFree_append, hw, Bool.true_and]
    split <;> decide

/-! ## Claim theorems -/

/-- Claim C8 counterexample: the template consisting of the single group with
options `a$&` and `b$&` passes validation, still contains a spintax marker,
and the render loop never terminates on it for the oracle that always picks
the first option: `$&` in the chosen option re-inserts the matched group at
every iteration. -/
theorem spintax_dollar_diverges_cex :
    (validateSpintax dollarMarker).1 = true ∧
    HasMarker dollarMarker ∧
    ¬ ∃ (fuel : Nat) (r : Str), parseSpintaxRun fuel [0] dollarMarker = some r := by
  refine ⟨by decide, ⟨[], dollarContent, [], rfl, by decide, by decide⟩, ?_⟩
  rintro ⟨fuel, r, h⟩
  have hn := parseSpintaxRun_dollar_none fuel [0] [] (by decide)
  rw [List.nil_append] at hn
  rw [hn] at h
  exact absurd h (by simp)

/-- Claim C8 (amended): for every choice oracle and every input text without
a dollar character (so that no JS replacement pattern takes effect), the
render loop terminates — it exits within `countOpen` iterations, and with
any larger fuel returns the same result — and its output is a fixpoint of
the group regex containing no remaining spintax marker `{...|...}` (a
brace-delimited, brace-free group containing a pipe). -/
theorem spintax_render_no_marker (ks : List Nat) (s : Str) (hd : '$' ∉ s) :
    parseSpintaxRun (countOpen s) ks s = some (parseSpintax ks s) ∧
    (∀ fuel, countOpen s ≤ fuel →
      parseSpintaxRun fuel ks s = some (parseSpintax ks s)) ∧
    findGroup (parseSpintax ks s) = none ∧
    ¬ HasMarker (parseSpintax ks s) := by
  obtain ⟨hsome, hres⟩ := parseSpintaxRun_no_dollar (countOpen s) ks s le_rfl hd
  have heq := parseSpintaxRun_eq_aux (countOpen s) ks s hsome
  have hfg : findGroup (parseSpintax ks s) = none := hres _ heq
  exact ⟨heq, fun fuel hle => parseSpintaxRun_mono _ _ _ _ _ heq hle, hfg,
    findGroup_none_no_marker hfg⟩

/-- Witness for C8 (amended): a dollar-free template renders to a terminating,
marker-free result. -/
theorem spintax_render_no_marker_witness :
    ('$' ∉ (("x{a|b}y".data) : Str)) ∧
    parseSpintaxRun (countOpen ("x{a|b}y".data)) [0] ("x{a|b}y".data) =
      some (parseSpintax [0] ("x{a|b}y".data)) ∧
    ¬ HasMarker (parseSpintax [0] ("x{a|b}y".data)) := by
  have hd : '$' ∉ (("x{a|b}y".data) : Str) := by decide
  exact ⟨hd, (spintax_render_no_marker [0] _ hd).1,
    (spintax_render_no_marker [0] _ hd).2.2.2⟩

/-- Claim C9: spintax validation rejects exactly the specified malformations:
`{a|b|}` is invalid (an option empty after trimming), `{a}` is invalid (no
pipe), `{a|b}` is valid with no errors reported, and any text whose braces
are unbalanced (a prefix closing more braces than were opened, or an open
brace never closed) is invalid. -/
theorem spintax_validate_malformations :
    (validateSpintax ("{a|b|}".data)).1 = false ∧
    (validateSpintax ("{a}".data)).1 = false ∧
    ((validateSpintax ("{a|b}".data)).1 = true ∧
      (validateSpintax ("{a|b}".data)).2 = []) ∧
    (∀ s : Str, ¬ BracesBalanced s → (validateSpintax s).1 = false) :=
  ⟨by decide, by decide, ⟨by decide, by decide⟩,
    fun _s h => validateSpintax_invalid_of_unbalanced h⟩

/-- Witness for C9: the single character `}` is unbalanced and is rejected. -/
theorem spintax_validate_malformations_witness :
    ¬ BracesBalanced ['}'] ∧ (validateSpintax ['}']).1 = false := by
  have hb : ¬ BracesBalanced ['}'] := fun hbal => absurd hbal.2 (by decide)
  exact ⟨hb, spintax_validate_malformations.2.2.2 ['}'] hb⟩

/-- Contact with no name, phone, email, groups or metadata. -/
def c5EmptyContact : Contact :=
  { id := "c0", name := [], phone := [], email := none, groups := none,
    metadata := none, createdAt := none }

/-- Claim C6 (code evaluation): an auto-reply rule with trigger type
`first_message` never matches any inbound text — the trigger switch has no
such case and falls through to `default: return false`, independent of any
recorded sender history. -/
theorem first_message_never_matches (text : Str) (rule : AutoReplyRule)
    (h : rule.triggerType = "first_message") :
    checkAutoReplyTrigger text rule = false := by
  unfold checkAutoReplyTrigger
  rw [h]
  rw [if_neg (by decide), if_neg (by decide), if_neg (by decide),
    if_neg (by decide), if_neg (by decide)]

/-- Active first-message rule used as the failing input of C6. -/
def c6Rule : AutoReplyRule :=
  { id := "r1", name := "welcome".data, keywords := [],
    triggerType := "first_message", response := "hi".data, delay := none,
    isActive := some true, businessHoursOnly := none,
    businessHoursStart := none, businessHoursEnd := none,
    sessionId := some "s1", createdAt := none }

/-- Witness for C6: a fresh sender's first message does not trigger the
active first-message rule. -/
theorem first_message_never_matches_witness :
    c6Rule.triggerType = "first_message" ∧
      checkAutoReplyTrigger ("hello".data) c6Rule = false :=
  ⟨rfl, first_message_never_matches ("hello".data) c6Rule rfl⟩

/-- Claim C7 (code evaluation): the scheduler's date-to-cron conversion drops
the year, so the registered recurring schedule matches both the intended
instant and the same calendar instant one year later — the expansion fires
again instead of exactly once. -/
theorem cron_conversion_fires_yearly :
    cronMatches (dateToCronExpression ⟨2026, 10, 12, 10, 0⟩)
      ⟨2026, 10, 12, 10, 0⟩ = true ∧
    cronMatches (dateToCronExpression ⟨2026, 10, 12, 10, 0⟩)
      ⟨2027, 10, 12, 10, 0⟩ = true ∧
    (⟨2026, 10, 12, 10, 0⟩ : SimpleDate) ≠ ⟨2027, 10, 12, 10, 0⟩ :=
  ⟨by decide, by decide, by decide⟩

/-- Claim C10: every storage update operation returns `undefined` and leaves
the whole store byte-for-byte unchanged when no record with the given id
exists; when the record exists, only that record's map entry changes (other
keys and the other four maps are untouched), the result is the spread merge
of the old record with the update, an empty update overwrites nothing, and —
spelled out field by field for campaigns — exactly the supplied fields are
overwritten. -/
theorem storage_update_contract :
    ∀ (st : MemStorage) (id : String),
      ((∀ u : ContactUpdate, mapGet id st.contacts = none → updateContact st id u = (st, none)) ∧
       (∀ (u : ContactUpdate) (r : Contact), mapGet id st.contacts = some r →
         (updateContact st id u).2 = some (applyContactUpdate r u) ∧
         mapGet id (updateContact st id u).1.contacts = some (applyContactUpdate r u) ∧
         (∀ id' : String, id' ≠ id →
           mapGet id' (updateContact st id u).1.contacts = mapGet id' st.contacts) ∧
         (updateContact st id u).1.sessions = st.sessions ∧
         (updateContact st id u).1.campaigns = st.campaigns ∧
         (updateContact st id u).1.autoReplyRules = st.autoReplyRules ∧
         (updateContact st id u).1.messageQueue = st.messageQueue ∧
         (updateContact st id u).1.nextId = st.nextId) ∧
       (∀ r : Contact, applyContactUpdate r {} = r)) ∧
      ((∀ u : SessionUpdate, mapGet id st.sessions = none → updateSession st id u = (st, none)) ∧
       (∀ (u : SessionUpdate) (r : WhatsappSession), mapGet id st.sessions = some r →
         (updateSession st id u).2 = some (applySessionUpdate r u) ∧
         mapGet id (updateSession st id u).1.sessions = some (applySessionUpdate r u) ∧
         (∀ id' : String, id' ≠ id →
           mapGet id' (updateSession st id u).1.sessions = mapGet id' st.sessions) ∧
         (updateSession st id u).1.contacts = st.contacts ∧
         (updateSession st id u).1.campaigns = st.campaigns ∧
         (updateSession st id u).1.autoReplyRules = st.autoReplyRules ∧
         (updateSession st id u).1.messageQueue = st.messageQueue ∧
         (updateSession st id u).1.nextId = st.nextId) ∧
       (∀ r : WhatsappSession, applySessionUpdate r {} = r)) ∧
      ((∀ u : CampaignUpdate, mapGet id st.campaigns = none → updateCampaign st id u = (st, none)) ∧
       (∀ (u : CampaignUpdate) (r : Campaign), mapGet id st.campaigns = some r →
         (updateCampaign st id u).2 = some (applyCampaignUpdate r u) ∧
         mapGet id (updateCampaign st id u).1.campaigns = some (applyCampaignUpdate r u) ∧
         (∀ id' : String, id' ≠ id →
           mapGet id' (updateCampaign st id u).1.campaigns = mapGet id' st.campaigns) ∧
         (updateCampaign st id u).1.contacts = st.contacts ∧
         (updateCampaign st id u).1.sessions = st.sessions ∧
         (updateCampaign st id u).1.autoReplyRules = st.autoReplyRules ∧
         (updateCampaign st id u).1.messageQueue = st.messageQueue ∧
         (updateCampaign st id u).1.nextId = st.nextId) ∧
       (∀ r : Campaign, applyCampaignUpdate r {} = r) ∧
       (∀ (r : Campaign) (u : CampaignUpdate),
         (u.id = none → (applyCampaignUpdate r u).id = r.id) ∧
         (∀ v, u.id = some v → (applyCampaignUpdate r u).id = v) ∧
         (u.name = none → (applyCampaignUpdate r u).name = r.name) ∧
         (∀ v, u.name = some v → (applyCampaignUpdate r u).name = v) ∧
         (u.message = none → (applyCampaignUpdate r u).message = r.message) ∧
         (∀ v, u.message = some v → (applyCampaignUpdate r u).message = v) ∧
         (u.contactGroups = none → (applyCampaignUpdate r u).contactGroups = r.contactGroups) ∧
         (∀ v, u.contactGroups = some v → (applyCampaignUpdate r u).contactGroups = v) ∧
         (u.mediaUrl = none → (applyCampaignUpdate r u).mediaUrl = r.mediaUrl) ∧
         (∀ v, u.mediaUrl = some v → (applyCampaignUpdate r u).mediaUrl = v) ∧
         (u.mediaType = none → (applyCampaignUpdate r u).mediaType = r.mediaType) ∧
         (∀ v, u.mediaType = some v → (applyCampaignUpdate r u).mediaType = v) ∧
         (u.status = none → (applyCampaignUpdate r u).status = r.status) ∧
         (∀ v, u.status = some v → (applyCampaignUpdate r u).status = v) ∧
         (u.scheduledAt = none → (applyCampaignUpdate r u).scheduledAt = r.scheduledAt) ∧
         (∀ v, u.scheduledAt = some v → (applyCampaignUpdate r u).scheduledAt = v) ∧
         (u.rateLimit = none → (applyCampaignUpdate r u).rateLimit = r.rateLimit) ∧
         (∀ v, u.rateLimit = some v → (applyCampaignUpdate r u).rateLimit = v) ∧
         (u.totalRecipients = none → (applyCampaignUpdate r u).totalRecipients = r.totalRecipients) ∧
         (∀ v, u.totalRecipients = some v → (applyCampaignUpdate r u).totalRecipients = v) ∧
         (u.messagesSent = none → (applyCampaignUpdate r u).messagesSent = r.messagesSent) ∧
         (∀ v, u.messagesSent = some v → (applyCampaignUpdate r u).messagesSent = v) ∧
         (u.messagesDelivered = none → (applyCampaignUpdate r u).messagesDelivered = r.messagesDelivered) ∧
         (∀ v, u.messagesDelivered = some v → (applyCampaignUpdate r u).messagesDelivered = v) ∧
         (u.messagesResponded = none → (applyCampaignUpdate r u).messagesResponded = r.messagesResponded) ∧
         (∀ v, u.messagesResponded = some v → (applyCampaignUpdate r u).messagesResponded = v) ∧
         (u.sessionId = none → (applyCampaignUpdate r u).sessionId = r.sessionId) ∧
         (∀ v, u.sessionId = some v → (applyCampaignUpdate r u).sessionId = v) ∧
         (u.createdAt = none → (applyCampaignUpdate r u).createdAt = r.createdAt) ∧
         (∀ v, u.createdAt = some v → (applyCampaignUpdate r u).createdAt = v))) ∧
      ((∀ u : AutoReplyRuleUpdate, mapGet id st.autoReplyRules = none → updateAutoReplyRule st id u = (st, none)) ∧
       (∀ (u : AutoReplyRuleUpdate) (r : AutoReplyRule), mapGet id st.autoReplyRules = some r →
         (updateAutoReplyRule st id u).2 = some (applyAutoReplyRuleUpdate r u) ∧
         mapGet id (updateAutoReplyRule st id u).1.autoReplyRules = some (applyAutoReplyRuleUpdate r u) ∧
         (∀ id' : String, id' ≠ id →
           mapGet id' (updateAutoReplyRule st id u).1.autoReplyRules = mapGet id' st.autoReplyRules) ∧
         (updateAutoReplyRule st id u).1.contacts = st.contacts ∧
         (updateAutoReplyRule st id u).1.sessions = st.sessions ∧
         (updateAutoReplyRule st id u).1.campaigns = st.campaigns ∧
         (updateAutoReplyRule st id u).1.messageQueue = st.messageQueue ∧
         (updateAutoReplyRule st id u).1.nextId = st.nextId) ∧
       (∀ r : AutoReplyRule, applyAutoReplyRuleUpdate r {} = r)) ∧
      ((∀ u : MessageQueueUpdate, mapGet id st.messageQueue = none → updateQueuedMessage st id u = (st, none)) ∧
       (∀ (u : MessageQueueUpdate) (r : MessageQueue), mapGet id st.messageQueue = some r →
         (updateQueuedMessage st id u).2 = some (applyMessageQueueUpdate r u) ∧
         mapGet id (updateQueuedMessage st id u).1.messageQueue = some (applyMessageQueueUpdate r u) ∧
         (∀ id' : String, id' ≠ id →
           mapGet id' (updateQueuedMessage st id u).1.messageQueue = mapGet id' st.messageQueue) ∧
         (updateQueuedMessage st id u).1.contacts = st.contacts ∧
         (updateQueuedMessage st id u).1.sessions = st.sessions ∧
         (updateQueuedMessage st id u).1.campaigns = st.campaigns ∧
         (updateQueuedMessage st id u).1.autoReplyRules = st.autoReplyRules ∧
         (updateQueuedMessage st id u).1.nextId = st.nextId) ∧
       (∀ r : MessageQueue, applyMessageQueueUpdate r {} = r)) := by
  intro st id
  refine ⟨⟨?_, ?_, ?_⟩, ⟨?_, ?_, ?_⟩, ⟨?_, ?_, ?_, ?_⟩, ⟨?_, ?_, ?_⟩, ⟨?_, ?_, ?_⟩⟩
  · exact fun u h => updateContact_none u h
  · intro u r h
    rw [updateContact_some u h]
    exact ⟨rfl, mapGet_mapSet_self id _ st.contacts,
      fun id' hne => mapGet_mapSet_ne _ st.contacts hne, rfl, rfl, rfl, rfl, rfl⟩
  · exact fun r => rfl
  · exact fun u h => updateSession_none u h
  · intro u r h
    rw [updateSession_some u h]
    exact ⟨rfl, mapGet_mapSet_self id _ st.sessions,
      fun id' hne => mapGet_mapSet_ne _ st.sessions hne, rfl, rfl, rfl, rfl, rfl⟩
  · exact fun r => rfl
  · exact fun u h => updateCampaign_none u h
  · intro u r h
    rw [updateCampaign_some u h]
    exact ⟨rfl, mapGet_mapSet_self id _ st.campaigns,
      fun id' hne => mapGet_mapSet_ne _ st.campaigns hne, rfl, rfl, rfl, rfl, rfl⟩
  · exact fun r => rfl
  · exact fun r u =>
      ⟨fun h => by simp [applyCampaignUpdate, h],
       fun v h => by simp [applyCampaignUpdate, h],
       fun h => by simp [applyCampaignUpdate, h],
       fun v h => by simp [applyCampaignUpdate, h],
       fun h => by simp [applyCampaignUpdate, h],
       fun v h => by simp [applyCampaignUpdate, h],
       fun h => by simp [applyCampaignUpdate, h],
       fun v h => by simp [applyCampaignUpdate, h],
       fun h => by simp [applyCampaignUpdate, h],
       fun v h => by simp [applyCampaignUpdate, h],
       fun h => by simp [applyCampaignUpdate, h],
       fun v h => by simp [applyCampaignUpdate, h],
       fun h => by simp [applyCampaignUpdate, h],
       fun v h => by simp [applyCampaignUpdate, h],
       fun h => by simp [applyCampaignUpdate, h],
       fun v h => by simp [applyCampaignUpdate, h],
       fun h => by simp [applyCampaignUpdate, h],
       fun v h => by simp [applyCampaignUpdate, h],
       fun h => by simp [applyCampaignUpdate, h],
       fun v h => by simp [applyCampaignUpdate, h],
       fun h => by simp [applyCampaignUpdate, h],
       fun v h => by simp [applyCampaignUpdate, h],
       fun h => by simp [applyCampaignUpdate, h],
       fun v h => by simp [applyCampaignUpdate, h],
       fun h => by simp [applyCampaignUpdate, h],
       fun v h => by simp [applyCampaignUpdate, h],
       fun h => by simp [applyCampaignUpdate, h],
       fun v h => by simp [applyCampaignUpdate, h],
       fun h => by simp [applyCampaignUpdate, h],
       fun v h => by simp [applyCampaignUpdate, h]⟩
  · exact fun u h => updateAutoReplyRule_none u h
  · intro u r h
    rw [updateAutoReplyRule_some u h]
    exact ⟨rfl, mapGet_mapSet_self id _ st.autoReplyRules,
      fun id' hne => mapGet_mapSet_ne _ st.autoReplyRules hne, rfl, rfl, rfl, rfl, rfl⟩
  · exact fun r => rfl
  · exact fun u h => updateQueuedMessage_none u h
  · intro u r h
    rw [updateQueuedMessage_some u h]
    exact ⟨rfl, mapGet_mapSet_self id _ st.messageQueue,
      fun id' hne => mapGet_mapSet_ne _ st.messageQueue hne, rfl, rfl, rfl, rfl, rfl⟩
  · exact fun r => rfl

/-- Campaign record used by the C10 witness. -/
def c10Campaign : Campaign :=
  { id := "cp", name := "n".data, message := "hi".data, contactGroups := none,
    mediaUrl := none, mediaType := none, status := "sending", scheduledAt := none,
    rateLimit := 30, totalRecipients := 0, messagesSent := 0,
    messagesDelivered := 0, messagesResponded := 0, sessionId := some "s1",
    createdAt := none }

/-- Store used by the C10 witness. -/
def c10Store : MemStorage :=
  { contacts := [("ct", c5EmptyContact)], sessions := [],
    campaigns := [("cp", c10Campaign)], autoReplyRules := [],
    messageQueue := [], nextId := 0 }

/-- Witness for C10: updating a missing contact returns `undefined` and
leaves the store unchanged; updating an existing campaign's status returns
the merged record whose status changed and whose rate limit did not. -/
theorem storage_update_contract_witness :
    updateContact c10Store "missing" {} = (c10Store, none) ∧
    (updateCampaign c10Store "cp" { status := some "paused" }).2 =
      some (applyCampaignUpdate c10Campaign { status := some "paused" }) ∧
    (applyCampaignUpdate c10Campaign { status := some "paused" }).status = "paused" ∧
    (applyCampaignUpdate c10Campaign { status := some "paused" }).rateLimit =
      c10Campaign.rateLimit := by
  have T := storage_update_contract c10Store
  have hfields := (T "cp").2.2.1.2.2.2 c10Campaign { status := some "paused" }
  refine ⟨(T "missing").1.1 {} (by decide),
    ((T "cp").2.2.1.2.1 { status := some "paused" } c10Campaign (by decide)).1,
    hfields.2.2.2.2.2.2.2.2.2.2.2.2.2.1 "paused" rfl,
    hfields.2.2.2.2.2.2.2.2.2.2.2.2.2.2.2.2.1 rfl⟩

theorem expandLoop_final_clean (now : Nat) (ks : List Nat)
    (fault : Option ExpansionFault) (campaign : Campaign)
    (hid : campaign.id ≠ "")
    (hclean : ∀ k, fault ≠ some (ExpansionFault.createFail k))
    (contacts : List Contact) (stB : MemStorage) (cB : Campaign)
    (hget : mapGet campaign.id stB.campaigns = some cB)
    (hqB : stB.messageQueue = []) :
    getCampaign (expandLoop now ks fault campaign contacts 0 stB) campaign.id =
      some cB ∧
    entryCount (expandLoop now ks fault campaign contacts 0 stB) campaign.id =
      contacts.length := by
  have hkeys : QueueKeysBelow stB := by
    intro p hp
    rw [hqB] at hp
    simp at hp
  obtain ⟨hcamps, hcount⟩ :=
    expandLoop_clean now ks fault campaign hid hclean contacts 0 stB hkeys
  constructor
  · unfold getCampaign
    rw [hcamps]
    exact hget
  · rw [hcount]
    have hz : entryCount stB campaign.id = 0 := by
      simp [entryCount, getMessageQueue, hqB, mapValues]
    rw [hz]
    simp

theorem expandLoop_final_fail (now : Nat) (ks : List Nat) (campaign : Campaign)
    (hid : campaign.id ≠ "") (k : Nat) (contacts : List Contact)
    (stB : MemStorage) (cB : Campaign)
    (hget : mapGet campaign.id stB.campaigns = some cB)
    (hqB : stB.messageQueue = []) (hk : k < contacts.length) :
    (getCampaign (expandLoop now ks (some (ExpansionFault.createFail k))
        campaign contacts 0 stB) campaign.id).map Campaign.status =
      some "failed" ∧
    entryCount (expandLoop now ks (some (ExpansionFault.createFail k))
        campaign contacts 0 stB) campaign.id = k := by
  have hkeys : QueueKeysBelow stB := by
    intro p hp
    rw [hqB] at hp
    simp at hp
  obtain ⟨stk, heq, hcamps, hcount⟩ :=
    expandLoop_fail now ks campaign hid k contacts 0 stB hkeys (by omega)
      (by omega)
  rw [heq]
  have hgetk : mapGet campaign.id stk.campaigns = some cB := by
    rw [hcamps]
    exact hget
  constructor
  · unfold getCampaign
    rw [updateCampaign_some _ hgetk]
    dsimp only
    rw [mapGet_mapSet_self]
    simp [applyCampaignUpdate]
  · rw [entryCount_congr campaign.id
      (updateCampaign_messageQueue stk campaign.id { status := some "failed" }),
      hcount]
    have hz : entryCount stB campaign.id = 0 := by
      simp [entryCount, getMessageQueue, hqB, mapValues]
    rw [hz]
    omega

/-- Claim C1 (amended): expansion is not atomic.  From a store holding the
campaign and an empty queue: a faultless expansion creates one entry per
resolved recipient and ends with status `sending` and `totalRecipients` set;
a recipient-resolution fault ends with status `failed` and no entries; but a
fault while creating entry `k` ends with status `failed` while the `k`
entries already created persist — partial expansion is observable. -/
theorem expansion_outcomes (now : Nat) (ks : List Nat) (campaign : Campaign)
    (st : MemStorage) (c0 : Campaign) (hid : campaign.id ≠ "")
    (hc : mapGet campaign.id st.campaigns = some c0)
    (hq : st.messageQueue = []) :
    ((getCampaign (processCampaign now ks none campaign st) campaign.id).map
        Campaign.status = some "sending" ∧
      (getCampaign (processCampaign now ks none campaign st) campaign.id).map
        Campaign.totalRecipients = some (resolveContacts st campaign).length ∧
      entryCount (processCampaign now ks none campaign st) campaign.id =
        (resolveContacts st campaign).length) ∧
    ((getCampaign (processCampaign now ks (some ExpansionFault.resolveFail)
        campaign st) campaign.id).map Campaign.status = some "failed" ∧
      entryCount (processCampaign now ks (some ExpansionFault.resolveFail)
        campaign st) campaign.id = 0) ∧
    (∀ k, k < (resolveContacts st campaign).length →
      (getCampaign (processCampaign now ks (some (ExpansionFault.createFail k))
        campaign st) campaign.id).map Campaign.status = some "failed" ∧
      entryCount (processCampaign now ks (some (ExpansionFault.createFail k))
        campaign st) campaign.id = k) := by
  have hres : resolveContacts (updateCampaign st campaign.id { status := some "sending" }).1 campaign = resolveContacts st campaign :=
    resolveContacts_congr campaign
      (updateCampaign_contacts st campaign.id { status := some "sending" })
  have hget1 : mapGet campaign.id ((updateCampaign st campaign.id { status := some "sending" }).1).campaigns = some (applyCampaignUpdate c0 { status := some "sending" }) := by
    rw [updateCampaign_some _ hc]
    exact mapGet_mapSet_self campaign.id _ st.campaigns
  have hgetB : mapGet campaign.id ((updateCampaign (updateCampaign st campaign.id { status := some "sending" }).1 campaign.id { totalRecipients := some (resolveContacts (updateCampaign st campaign.id { status := some "sending" }).1 campaign).length }).1).campaigns = some (applyCampaignUpdate (applyCampaignUpdate c0 { status := some "sending" }) { totalRecipients := some (resolveContacts (updateCampaign st campaign.id { status := some "sending" }).1 campaign).length }) := by
    rw [updateCampaign_some _ hget1]
    exact mapGet_mapSet_self campaign.id _ _
  have hqB : ((updateCampaign (updateCampaign st campaign.id { status := some "sending" }).1 campaign.id { totalRecipients := some (resolveContacts (updateCampaign st campaign.id { status := some "sending" }).1 campaign).length }).1).messageQueue = [] := by
    rw [updateCampaign_messageQueue, updateCampaign_messageQueue]
    exact hq
  have hpcN : processCampaign now ks none campaign st =
      expandLoop now ks none campaign (resolveContacts (updateCampaign st campaign.id { status := some "sending" }).1 campaign) 0
        (updateCampaign (updateCampaign st campaign.id { status := some "sending" }).1 campaign.id { totalRecipients := some (resolveContacts (updateCampaign st campaign.id { status := some "sending" }).1 campaign).length }).1 := rfl
  have hpcR : processCampaign now ks (some ExpansionFault.resolveFail) campaign st =
      (updateCampaign (updateCampaign st campaign.id { status := some "sending" }).1 campaign.id { status := some "failed" }).1 := rfl
  have hpcC : ∀ k, processCampaign now ks (some (ExpansionFault.createFail k))
      campaign st =
      expandLoop now ks (some (ExpansionFault.createFail k)) campaign
        (resolveContacts (updateCampaign st campaign.id { status := some "sending" }).1 campaign) 0 (updateCampaign (updateCampaign st campaign.id { status := some "sending" }).1 campaign.id { totalRecipients := some (resolveContacts (updateCampaign st campaign.id { status := some "sending" }).1 campaign).length }).1 := fun k => rfl
  refine ⟨?_, ?_, ?_⟩
  · rw [hpcN]
    obtain ⟨hg, hcnt⟩ := expandLoop_final_clean now ks none campaign hid
      (by intro k; simp) (resolveContacts (updateCampaign st campaign.id { status := some "sending" }).1 campaign) (updateCampaign (updateCampaign st campaign.id { status := some "sending" }).1 campaign.id { totalRecipients := some (resolveContacts (updateCampaign st campaign.id { status := some "sending" }).1 campaign).length }).1 (applyCampaignUpdate (applyCampaignUpdate c0 { status := some "sending" }) { totalRecipients := some (resolveContacts (updateCampaign st campaign.id { status := some "sending" }).1 campaign).length }) hgetB hqB
    refine ⟨?_, ?_, ?_⟩
    · rw [hg]
      simp [applyCampaignUpdate]
    · rw [hg]
      simp [applyCampaignUpdate, hres]
    · rw [hcnt, hres]
  · rw [hpcR]
    constructor
    · unfold getCampaign
      rw [updateCampaign_some _ hget1]
      dsimp only
      rw [mapGet_mapSet_self]
      simp [applyCampaignUpdate]
    · have hqf : ((updateCampaign (updateCampaign st campaign.id { status := some "sending" }).1 campaign.id
          { status := some "failed" }).1).messageQueue = [] := by
        rw [updateCampaign_messageQueue, updateCampaign_messageQueue]
        exact hq
      simp [entryCount, getMessageQueue, hqf, mapValues]
  · intro k hk
    rw [hpcC k]
    exact expandLoop_final_fail now ks campaign hid k
      (resolveContacts (updateCampaign st campaign.id { status := some "sending" }).1 campaign) (updateCampaign (updateCampaign st campaign.id { status := some "sending" }).1 campaign.id { totalRecipients := some (resolveContacts (updateCampaign st campaign.id { status := some "sending" }).1 campaign).length }).1 (applyCampaignUpdate (applyCampaignUpdate c0 { status := some "sending" }) { totalRecipients := some (resolveContacts (updateCampaign st campaign.id { status := some "sending" }).1 campaign).length }) hgetB hqB
      (by rw [hres]; exact hk)

/-- Claim C2 (amended): within one tick, the number of messages a connected
channel sends is bounded by the effective rate limit derived from the first
pending entry's campaign (`campaign?.rateLimit || 30`); entries later in the
batch may belong to other campaigns, whose own limits are not consulted. -/
theorem dispatch_tick_first_entry_rate (now : Nat) (oracle : List Bool)
    (st : MemStorage) (session : WhatsappSession) (m : MessageQueue)
    (rest : List MessageQueue)
    (hs : st.sessions = [(session.id, session)])
    (h0 : sentCount st session.id = 0)
    (hp : getPendingMessages st session.id = m :: rest) :
    sentCount (processQueuedMessages now oracle st) session.id ≤ effRate st m := by
  rw [processQueuedMessages_single now oracle st session hs]
  by_cases hconn : session.status = "connected"
  · rw [processSession_eq_of_pending now oracle session st m rest hconn hp]
    have hbatch := processBatch_sentCount_le now oracle session.id
      ((m :: rest).take (min (effRate st m) (m :: rest).length)) 0 st
    have hlen : ((m :: rest).take
        (min (effRate st m) (m :: rest).length)).length ≤ effRate st m := by
      rw [List.length_take]
      omega
    have hsentEq : sentCount (match m.campaignId with
        | some cid => checkCampaignCompletion (processBatch now oracle
            ((m :: rest).take (min (effRate st m) (m :: rest).length)) 0 st) cid
        | none => processBatch now oracle
            ((m :: rest).take (min (effRate st m) (m :: rest).length)) 0 st)
        session.id =
        sentCount (processBatch now oracle
          ((m :: rest).take (min (effRate st m) (m :: rest).length)) 0 st)
          session.id := by
      rcases m.campaignId with _ | cid
      · rfl
      · exact sentCount_congr _ (checkCampaignCompletion_messageQueue _ _)
    rw [hsentEq]
    omega
  · unfold processSession
    rw [if_pos hconn]
    rw [h0]
    exact Nat.zero_le _

/-- Claim C4 (amended): after a tick, only the campaign owning the first
pending entry of a session's queue is completion-checked: if that campaign
then exists and has zero pending entries, its status is `completed`.  (Other
campaigns touched in the same tick are not checked.) -/
theorem dispatch_completion_first_campaign (now : Nat) (oracle : List Bool)
    (st : MemStorage) (session : WhatsappSession) (m : MessageQueue)
    (rest : List MessageQueue) (cid : String)
    (hs : st.sessions = [(session.id, session)])
    (hconn : session.status = "connected")
    (hp : getPendingMessages st session.id = m :: rest)
    (hm : m.campaignId = some cid) (c : Campaign)
    (hc : getCampaign (processQueuedMessages now oracle st) cid = some c)
    (hpend : campaignPendingCount (processQueuedMessages now oracle st) cid = 0) :
    c.status = "completed" := by
  rw [processQueuedMessages_single now oracle st session hs,
    processSession_eq_of_pending now oracle session st m rest hconn hp, hm]
    at hc hpend
  dsimp only at hc hpend
  set stB := processBatch now oracle
    ((m :: rest).take (min (effRate st m) (m :: rest).length)) 0 st with hstB
  unfold checkCampaignCompletion at hc hpend
  rcases hg : getCampaign stB cid with _ | camp
  · rw [hg] at hc
    simp at hc
    rw [hc] at hg
    simp at hg
  · rw [hg] at hc hpend
    dsimp only at hc hpend
    by_cases hemp : ((getMessageQueue stB).filter (fun m =>
        m.campaignId == some cid && m.status == "pending")).isEmpty = true
    · rw [if_pos hemp] at hc
      have hg' : mapGet cid stB.campaigns = some camp := hg
      rw [getCampaign, updateCampaign_some _ hg'] at hc
      dsimp only at hc
      rw [mapGet_mapSet_self] at hc
      have : applyCampaignUpdate camp { status := some "completed" } = c := by
        injection hc
      rw [← this]
      simp [applyCampaignUpdate]
    · rw [if_neg hemp] at hpend
      have : ((getMessageQueue stB).filter (fun m =>
          m.campaignId == some cid && m.status == "pending")) = [] :=
        List.length_eq_zero.mp hpend
      rw [← List.isEmpty_iff] at this
      exact absurd this hemp

/-! ## Concrete stores for the counterexamples and witnesses -/

/-- Recipient used in the C1 scenario. -/
def c1Contact1 : Contact :=
  { id := "ct1", name := "A".data, phone := "1".data, email := none,
    groups := none, metadata := none, createdAt := none }

/-- Second recipient used in the C1 scenario. -/
def c1Contact2 : Contact :=
  { id := "ct2", name := "B".data, phone := "2".data, email := none,
    groups := none, metadata := none, createdAt := none }

/-- Campaign being expanded in the C1 scenario. -/
def c1Campaign : Campaign :=
  { id := "camp1", name := "n".data, message := "hi".data, contactGroups := none,
    mediaUrl := none, mediaType := none, status := "draft", scheduledAt := none,
    rateLimit := 30, totalRecipients := 0, messagesSent := 0,
    messagesDelivered := 0, messagesResponded := 0, sessionId := some "s1",
    createdAt := none }

/-- Store of the C1 scenario: two contacts, the draft campaign, empty queue. -/
def c1Store : MemStorage :=
  { contacts := [("ct1", c1Contact1), ("ct2", c1Contact2)],
    sessions := [], campaigns := [("camp1", c1Campaign)],
    autoReplyRules := [], messageQueue := [], nextId := 0 }

/-- Claim C1 counterexample: when creating the second of two recipients'
entries fails, the campaign ends `failed` while one queue entry persists —
neither "all entries and sending" nor "failed with zero entries" holds. -/
theorem expansion_not_atomic_cex :
    (getCampaign (processCampaign 0 [] (some (ExpansionFault.createFail 1))
      c1Campaign c1Store) "camp1").map Campaign.status = some "failed" ∧
    entryCount (processCampaign 0 [] (some (ExpansionFault.createFail 1))
      c1Campaign c1Store) "camp1" = 1 ∧
    ¬ entryCount (processCampaign 0 [] (some (ExpansionFault.createFail 1))
      c1Campaign c1Store) "camp1" = 0 :=
  ⟨by decide, by decide, by decide⟩

/-- Witness for C1 (amended): the general theorem applied to the two-contact
store, failing at the second entry. -/
theorem expansion_outcomes_witness :
    (getCampaign (processCampaign 0 [] (some (ExpansionFault.createFail 1))
      c1Campaign c1Store) c1Campaign.id).map Campaign.status = some "failed" ∧
    entryCount (processCampaign 0 [] (some (ExpansionFault.createFail 1))
      c1Campaign c1Store) c1Campaign.id = 1 :=
  (expansion_outcomes 0 [] c1Campaign c1Store c1Campaign (by decide) (by decide)
    rfl).2.2 1 (by decide)

/-- Connected session of the C2 scenario. -/
def c2Session : WhatsappSession :=
  { id := "s1", sessionId := "wa1", phone := none, status := "connected",
    qrCode := none, lastSeen := none, createdAt := none }

/-- High-rate campaign owning the first pending entry in the C2 scenario. -/
def c2CampA : Campaign :=
  { id := "cA", name := "a".data, message := "x".data, contactGroups := none,
    mediaUrl := none, mediaType := none, status := "sending", scheduledAt := none,
    rateLimit := 30, totalRecipients := 1, messagesSent := 0,
    messagesDelivered := 0, messagesResponded := 0, sessionId := some "s1",
    createdAt := none }

/-- Campaign with rate limit 1 whose entries sit behind the first one. -/
def c2CampB : Campaign :=
  { id := "cB", name := "b".data, message := "y".data, contactGroups := none,
    mediaUrl := none, mediaType := none, status := "sending", scheduledAt := none,
    rateLimit := 1, totalRecipients := 2, messagesSent := 0,
    messagesDelivered := 0, messagesResponded := 0, sessionId := some "s1",
    createdAt := none }

/-- Third recipient of the C2 scenario. -/
def c2Contact3 : Contact :=
  { id := "ct3", name := "C".data, phone := "3".data, email := none,
    groups := none, metadata := none, createdAt := none }

/-- First pending entry (campaign `cA`). -/
def c2MsgA : MessageQueue :=
  { id := "m1", campaignId := some "cA", contactId := some "ct1",
    message := "x".data, mediaUrl := none, mediaType := none,
    status := "pending", scheduledAt := some 0, sentAt := none,
    deliveredAt := none, errorMessage := none, sessionId := some "s1",
    createdAt := some 0 }

/-- Second pending entry (campaign `cB`, rate limit 1). -/
def c2MsgB1 : MessageQueue :=
  { id := "m2", campaignId := some "cB", contactId := some "ct2",
    message := "y".data, mediaUrl := none, mediaType := none,
    status := "pending", scheduledAt := some 0, sentAt := none,
    deliveredAt := none, errorMessage := none, sessionId := some "s1",
    createdAt := some 0 }

/-- Third pending entry (campaign `cB`). -/
def c2MsgB2 : MessageQueue :=
  { id := "m3", campaignId := some "cB", contactId := some "ct3",
    message := "y".data, mediaUrl := none, mediaType := none,
    status := "pending", scheduledAt := some 0, sentAt := none,
    deliveredAt := none, errorMessage := none, sessionId := some "s1",
    createdAt := some 0 }

/-- Store of the C2 scenario: one connected session, a rate-30 campaign's
entry queued ahead of two entries of a rate-1 campaign. -/
def c2Store : MemStorage :=
  { contacts := [("ct1", c1Contact1), ("ct2", c1Contact2), ("ct3", c2Contact3)],
    sessions := [("s1", c2Session)],
    campaigns := [("cA", c2CampA), ("cB", c2CampB)],
    autoReplyRules := [],
    messageQueue := [("m1", c2MsgA), ("m2", c2MsgB1), ("m3", c2MsgB2)],
    nextId := 0 }

/-- Claim C2 counterexample: the tick sends all three entries because the
first entry's campaign allows 30/minute, yet two of the sent entries belong
to a campaign whose configured rate limit is 1 — the per-entry bound fails. -/
theorem dispatch_rate_limit_cex :
    sentCount (processQueuedMessages 9 [] c2Store) "s1" = 3 ∧
    (mapGet "m2" (processQueuedMessages 9 [] c2Store).messageQueue).map
      MessageQueue.status = some "sent" ∧
    (mapGet "m3" (processQueuedMessages 9 [] c2Store).messageQueue).map
      MessageQueue.status = some "sent" ∧
    effRate c2Store c2MsgB1 = 1 ∧
    ¬ sentCount (processQueuedMessages 9 [] c2Store) "s1" ≤ effRate c2Store c2MsgB1 :=
  ⟨by decide, by decide, by decide, by decide, by decide⟩

/-- Witness for C2 (amended): the tick bound applied to the concrete store,
whose first pending entry belongs to the rate-30 campaign. -/
theorem dispatch_tick_first_entry_rate_witness :
    sentCount (processQueuedMessages 9 [] c2Store) c2Session.id ≤
      effRate c2Store c2MsgA :=
  dispatch_tick_first_entry_rate 9 [] c2Store c2Session c2MsgA [c2MsgB1, c2MsgB2]
    rfl (by decide) (by decide)

/-- Campaign that is paused in the C3 scenario. -/
def c3Campaign : Campaign :=
  { id := "campP", name := "p".data, message := "hi".data, contactGroups := none,
    mediaUrl := none, mediaType := none, status := "sending", scheduledAt := none,
    rateLimit := 30, totalRecipients := 1, messagesSent := 0,
    messagesDelivered := 0, messagesResponded := 0, sessionId := some "s1",
    createdAt := none }

/-- Pending entry of the paused campaign. -/
def c3Msg : MessageQueue :=
  { id := "m1", campaignId := some "campP", contactId := some "ct1",
    message := "hi".data, mediaUrl := none, mediaType := none,
    status := "pending", scheduledAt := some 0, sentAt := none,
    deliveredAt := none, errorMessage := none, sessionId := some "s1",
    createdAt := some 0 }

/-- Store of the C3 scenario before the pause request. -/
def c3Store : MemStorage :=
  { contacts := [("ct1", c1Contact1)],
    sessions := [("s1", c2Session)],
    campaigns := [("campP", c3Campaign)],
    autoReplyRules := [],
    messageQueue := [("m1", c3Msg)],
    nextId := 0 }

/-- Claim C3 (code evaluation): after the pause endpoint marks the campaign
`paused`, the very next tick still sends its pending entry, increments its
`messagesSent`, and the completion check even flips the paused campaign to
`completed` — the dispatch loop never consults the campaign status. -/
theorem paused_campaign_still_sent :
    (getCampaign (pauseCampaign c3Store "campP") "campP").map Campaign.status =
      some "paused" ∧
    (mapGet "m1" (processQueuedMessages 7 []
      (pauseCampaign c3Store "campP")).messageQueue).map MessageQueue.status =
      some "sent" ∧
    (getCampaign (processQueuedMessages 7 [] (pauseCampaign c3Store "campP"))
      "campP").map Campaign.messagesSent = some 1 ∧
    (getCampaign (processQueuedMessages 7 [] (pauseCampaign c3Store "campP"))
      "campP").map Campaign.status = some "completed" :=
  ⟨by decide, by decide, by decide, by decide⟩

/-- Second sending campaign of the C4 scenario. -/
def c4CampB : Campaign :=
  { id := "cB", name := "b".data, message := "y".data, contactGroups := none,
    mediaUrl := none, mediaType := none, status := "sending", scheduledAt := none,
    rateLimit := 30, totalRecipients := 1, messagesSent := 0,
    messagesDelivered := 0, messagesResponded := 0, sessionId := some "s1",
    createdAt := none }

/-- Entry of the second campaign, queued behind the first campaign's entry. -/
def c4MsgB : MessageQueue :=
  { id := "m2", campaignId := some "cB", contactId := some "ct2",
    message := "y".data, mediaUrl := none, mediaType := none,
    status := "pending", scheduledAt := some 0, sentAt := none,
    deliveredAt := none, errorMessage := none, sessionId := some "s1",
    createdAt := some 0 }

/-- Store of the C4 scenario: two sending campaigns with one pending entry
each on the same session. -/
def c4Store : MemStorage :=
  { contacts := [("ct1", c1Contact1), ("ct2", c1Contact2)],
    sessions := [("s1", c2Session)],
    campaigns := [("cA", c2CampA), ("cB", c4CampB)],
    autoReplyRules := [],
    messageQueue := [("m1", c2MsgA), ("m2", c4MsgB)],
    nextId := 0 }

/-- Claim C4 counterexample: both campaigns have an entry processed in the
tick and both end with zero pending entries, but only the first entry's
campaign `cA` is marked completed — `cB` stays `sending`. -/
theorem completion_check_only_first_cex :
    (mapGet "m2" (processQueuedMessages 3 [] c4Store).messageQueue).map
      MessageQueue.status = some "sent" ∧
    campaignPendingCount (processQueuedMessages 3 [] c4Store) "cB" = 0 ∧
    (getCampaign (processQueuedMessages 3 [] c4Store) "cA").map Campaign.status =
      some "completed" ∧
    (getCampaign (processQueuedMessages 3 [] c4Store) "cB").map Campaign.status =
      some "sending" ∧
    ¬ (getCampaign (processQueuedMessages 3 [] c4Store) "cB").map Campaign.status =
      some "completed" :=
  ⟨by decide, by decide, by decide, by decide, by decide⟩

/-- Store of the C4 witness: a single campaign whose only entry drains. -/
def c4wStore : MemStorage :=
  { contacts := [("ct1", c1Contact1)],
    sessions := [("s1", c2Session)],
    campaigns := [("campP", c3Campaign)],
    autoReplyRules := [],
    messageQueue := [("m1", c3Msg)],
    nextId := 0 }

/-- Final record of the C4 witness campaign after its queue drains. -/
def c4wFinal : Campaign :=
  { id := "campP", name := "p".data, message := "hi".data, contactGroups := none,
    mediaUrl := none, mediaType := none, status := "completed", scheduledAt := none,
    rateLimit := 30, totalRecipients := 1, messagesSent := 1,
    messagesDelivered := 0, messagesResponded := 0, sessionId := some "s1",
    createdAt := none }

/-- Witness for C4 (amended): the drained first-entry campaign is completed. -/
theorem dispatch_completion_first_campaign_witness :
    getCampaign (processQueuedMessages 3 [] c4wStore) "campP" = some c4wFinal ∧
    c4wFinal.status = "completed" :=
  ⟨by decide,
    dispatch_completion_first_campaign 3 [] c4wStore c2Session c3Msg [] "campP"
      rfl rfl (by decide) rfl c4wFinal (by decide) (by decide)⟩
